import Mathlib

/-!
Verification of the card-matching and trade-dispatch engine of the CLUBTARO
repository (package `mangabuff`).  The Python sources under
`mangabuff/services/card_selector.py` and `mangabuff/services/trade.py` are
shallowly embedded below: pure decision logic becomes Lean functions, the
stateful pieces (wanters cache, partner state, the orchestration loop) become
explicit state passing, and every remote HTTP interaction is an oracle
parameter, since the HTTP layer (`mangabuff.http`), the HTML parsing layer
(`mangabuff.parsing`) and the configuration module (`mangabuff.config`) are
not part of the sources being verified.
-/

namespace Clubtaro

/-! ## Python-style helpers

Python truthiness for the optional string and integer fields that the code
reads with `dict.get`: `None` and the empty string are falsy, the integer `0`
is falsy. -/

/-- Embedding of the Python expression `a or b` for optional strings:
`None` and `""` fall through to `b`. -/
def pyOrS (a b : Option String) : Option String :=
  match a with
  | some s => if s = "" then b else some s
  | none => b

/-- Truthiness filter for an optional integer field: `None` and `0` are falsy. -/
def truthyNat (a : Option Nat) : Option Nat :=
  match a with
  | some 0 => none
  | some n => some n
  | none => none

/-- Embedding of the Python substring test `needle in hay` for a non-empty
needle: the needle's characters form a contiguous infix of the haystack's. -/
def pyIn (needle hay : String) : Bool :=
  decide (needle.data <:+: hay.data)

/-- Embedding of Python `str.strip()`: drop whitespace from both ends. -/
def pyStrip (s : String) : String :=
  ⟨((s.data.dropWhile Char.isWhitespace).reverse.dropWhile
      Char.isWhitespace).reverse⟩

/-! ## Data model

`CardEntry` is the shape of one raw inventory entry as the Python code reads
it: optional flat `rank` / `grade` strings, an optional nested `card` object
(with its own `rank` / `grade` / `id`), an optional flat `card_id`, and the
instance identifier.  `instId` holds the value that `entry_instance_id`
(from `mangabuff.parsing.cards`, not among the verified sources) extracts.
Modelled from the spec: `entry_instance_id` of the Card Catalog Normalizer
yields the entry's instance identifier when the entry has one. -/

structure NestedCard where
  rank : Option String
  grade : Option String
  id : Option Nat
  name : Option String
  title : Option String
  deriving Repr, DecidableEq

structure CardEntry where
  rank : Option String
  grade : Option String
  card : Option NestedCard
  card_id : Option Nat
  id : Option Nat
  name : Option String
  title : Option String
  instId : Option Nat
  deriving Repr, DecidableEq

/-- The target ("boost") card: the fields the trade engine reads. -/
structure TargetCard where
  rank : Option String
  wanters_count : Option Nat
  card_id : Option Nat
  name : Option String
  deriving Repr, DecidableEq

/-- `entry_instance_id(card)` followed by the code's truthiness check
`if inst:` — instance id `0` does not count. -/
def entryInstanceId (c : CardEntry) : Option Nat :=
  truthyNat c.instId

/-- Rank extraction of `select_suitable_card_for_trade` (card_selector.py,
lines 197-210): flat `rank`, else flat `grade`, else nested `card.rank`,
else nested `card.grade`; each taken only when truthy, then stripped. -/
def cardRankOf (c : CardEntry) : Option String :=
  match pyOrS c.rank none with
  | some s => some (pyStrip s)
  | none =>
    match pyOrS c.grade none with
    | some s => some (pyStrip s)
    | none =>
      match c.card with
      | some n =>
        match pyOrS n.rank none with
        | some s => some (pyStrip s)
        | none =>
          match pyOrS n.grade none with
          | some s => some (pyStrip s)
          | none => none
      | none => none

/-- `card_id` extraction (card_selector.py, lines 216-218): flat `card_id`
when truthy, otherwise the nested `card.id`; the result must be truthy. -/
def cardIdOf (c : CardEntry) : Option Nat :=
  match truthyNat c.card_id with
  | some n => some n
  | none => c.card.bind fun n => truthyNat n.id

/-! ## Wanters cache (card_selector.py, class `CardWantersCache`)

The on-disk JSON dictionary becomes an association list keyed by the card id
(the Python key is `str(card_id)`; `str` on integers is injective, so the
numeric key is kept).  Wall-clock time is an explicit rational parameter.
The `cached_at` ISO-datetime field is display-only (never read back) and is
not modelled. -/

/-- Constant `CACHE_LIFETIME_HOURS` from card_selector.py. -/
def CACHE_LIFETIME_HOURS : Nat := 24

structure CacheEntry where
  card_id : Nat
  name : String
  rank : String
  wanters_count : Nat
  timestamp : ℚ
  instance_id : Nat
  deriving Repr, DecidableEq

abbrev WCache := List (Nat × CacheEntry)

/-- Dictionary lookup `self.cache_data[str(card_id)]`. -/
def cacheFind : WCache → Nat → Option CacheEntry
  | [], _ => none
  | p :: c, k => if p.1 = k then some p.2 else cacheFind c k

/-- Dictionary deletion `del self.cache_data[key]`. -/
def cacheErase : WCache → Nat → WCache
  | [], _ => []
  | p :: c, k => if p.1 = k then cacheErase c k else p :: cacheErase c k

/-- Dictionary assignment `self.cache_data[key] = entry`. -/
def cacheInsert (c : WCache) (k : Nat) (e : CacheEntry) : WCache :=
  cacheErase c k ++ [(k, e)]

/-- `CardWantersCache.get_wanters_count` (card_selector.py, lines 46-63):
returns the cached count unless the entry is older than the cache lifetime,
in which case the entry is deleted and the lookup reports absent.  `now` is
`time.time()`.  Returns the result together with the updated cache. -/
def get_wanters_count (cache : WCache) (now : ℚ) (card_id : Nat) :
    Option Nat × WCache :=
  match cacheFind cache card_id with
  | none => (none, cache)
  | some entry =>
    if (CACHE_LIFETIME_HOURS : ℚ) * 3600 < now - entry.timestamp then
      (none, cacheErase cache card_id)
    else
      (some entry.wanters_count, cache)

/-- The cache entry built by `CardWantersCache.set_card_info`
(card_selector.py, lines 65-94): the wanters count stamped with the current
time, plus the display name (`title` or `name`, else nested
`card.name` / `card.title`), the rank (`rank` or `grade`, else the nested
pair) and the instance id (`id`, else `entry_instance_id`) extracted from
the heterogeneous entry. -/
def setEntryOf (now : ℚ) (card_id wanters_count : Nat)
    (card_info : CardEntry) : CacheEntry :=
  let name :=
    match pyOrS card_info.title (pyOrS card_info.name none) with
    | some s => s
    | none =>
      match card_info.card with
      | some n => (pyOrS n.name (pyOrS n.title none)).getD ""
      | none => ""
  let rank :=
    match pyOrS card_info.rank (pyOrS card_info.grade none) with
    | some s => s
    | none =>
      match card_info.card with
      | some n => (pyOrS n.rank (pyOrS n.grade none)).getD ""
      | none => ""
  let instance_id :=
    match truthyNat card_info.id with
    | some n => n
    | none => (entryInstanceId card_info).getD 0
  { card_id := card_id
    name := pyStrip name
    rank := pyStrip rank
    wanters_count := wanters_count
    timestamp := now
    instance_id := instance_id }

/-- `CardWantersCache.set_card_info` (card_selector.py, lines 65-94): always
overwrites the key with a freshly stamped entry. -/
def set_card_info (cache : WCache) (now : ℚ) (card_id : Nat)
    (wanters_count : Nat) (card_info : CardEntry) : WCache :=
  cacheInsert cache card_id (setEntryOf now card_id wanters_count card_info)

/-- `CardWantersCache.cleanup_old_entries` (lines 96-109): drop every entry
older than the lifetime. -/
def cleanup_old_entries (cache : WCache) (now : ℚ) : WCache :=
  cache.filter fun p =>
    ¬ ((CACHE_LIFETIME_HOURS : ℚ) * 3600 < now - p.2.timestamp)

/-! ## Card selector (card_selector.py)

The remote wanters lookup `count_by_last_page` lives in
`mangabuff.services.counters`, which is not among the verified sources; it is
the spec's Remote Card-Count Endpoint and enters as the oracle
`remote : Nat → Nat` from card id to observed count. -/

/-- Constant `MAX_SELECTION_ATTEMPTS` from card_selector.py. -/
def MAX_SELECTION_ATTEMPTS : Nat := 10

/-- `get_card_wanters_count` (card_selector.py, lines 112-137): cached count
when fresh, otherwise the remote lookup.  Returns the count and the cache as
left by the embedded `get_wanters_count` (which may evict an expired entry). -/
def get_card_wanters_count (remote : Nat → Nat) (cache : WCache) (now : ℚ)
    (card_id : Nat) : Nat × WCache :=
  match get_wanters_count cache now card_id with
  | (some cached, cache') => (cached, cache')
  | (none, cache') => (remote card_id, cache')

/-- `is_wanters_count_acceptable` (card_selector.py, lines 140-159).  The
tolerance band `int(target * (1 - 0.30)) <= card <= int(target * (1 + 0.10))`
is embedded with exact rational arithmetic: for a natural `target` the two
Python truncations become the floor divisions `target * 7 / 10` and
`target * 11 / 10`.  (Binary floating point can land one below the exact
lower bound for some targets, e.g. 90; every concrete instance used in the
theorems below lies where the two agree.) -/
def is_wanters_count_acceptable (target_wanters card_wanters : Nat) : Bool :=
  if target_wanters = 0 then
    card_wanters ≤ 3
  else
    target_wanters * 7 / 10 ≤ card_wanters ∧
      card_wanters ≤ target_wanters * 11 / 10

/-- `(target_card.get("rank") or "").strip()` (line 188). -/
def targetRankStr (t : TargetCard) : String :=
  pyStrip ((pyOrS t.rank none).getD "")

/-- `target_card.get("wanters_count", 0)` (line 189). -/
def targetWanters (t : TargetCard) : Nat :=
  t.wanters_count.getD 0

/-- One element of the `suitable_cards` list built by
`select_suitable_card_for_trade` (lines 221-225). -/
structure Cand where
  instance_id : Nat
  card_id : Nat
  card_info : CardEntry
  deriving Repr, DecidableEq

/-- The rank filter of `select_suitable_card_for_trade` (lines 195-225):
keep entries whose extracted rank equals the target's rank and which expose
a truthy instance id and a truthy card id. -/
def suitableCardsFor (my_cards : List CardEntry) (target_rank : String) :
    List Cand :=
  my_cards.filterMap fun c =>
    if cardRankOf c = some target_rank then
      match entryInstanceId c with
      | some inst =>
        match cardIdOf c with
        | some cid => some ⟨inst, cid, c⟩
        | none => none
      | none => none
    else none

/-- The selection scan (lines 241-260): walk the shuffled candidates, at most
`fuel = min MAX_SELECTION_ATTEMPTS n` of them, resolving each candidate's
wanters count through the cache; stop at the first acceptable candidate,
otherwise record the rejection in the cache and in the rejected list. -/
def selectScan (remote : Nat → Nat) (now : ℚ) (target_wanters : Nat) :
    Nat → List Cand → WCache → List (Nat × Nat) →
      Option Cand × List (Nat × Nat) × WCache
  | 0, _, cache, rejected => (none, rejected, cache)
  | _ + 1, [], cache, rejected => (none, rejected, cache)
  | fuel + 1, c :: rest, cache, rejected =>
    let r := get_card_wanters_count remote cache now c.card_id
    if is_wanters_count_acceptable target_wanters r.1 then
      (some c, rejected, r.2)
    else
      let cache2 := set_card_info r.2 now c.card_id r.1 c.card_info
      selectScan remote now target_wanters fuel rest cache2
        (rejected ++ [(c.card_id, r.1)])

/-- One iteration of the closest-match loop (lines 280-289): look the
candidate's recorded wanters count up in the rejected list (first entry with
the same card id, mirroring the inner `for`/`break`), and keep the candidate
when its absolute distance to the target strictly improves on the best so
far; a candidate whose id is missing from the rejected list is skipped. -/
def bestStep (rejected : List (Nat × Nat)) (target_wanters : Nat)
    (acc : Option Cand × Option Nat) (card : Cand) :
    Option Cand × Option Nat :=
  match rejected.find? fun p => p.1 = card.card_id with
  | none => acc
  | some p =>
    let diff := ((p.2 : ℤ) - (target_wanters : ℤ)).natAbs
    match acc.2 with
    | none => (some card, some diff)
    | some best_diff =>
      if diff < best_diff then (some card, some diff) else acc

/-- The closest-match fallback (lines 277-289): among the already-checked
prefix, the candidate whose recorded wanters count is strictly closest to
the target (first winner kept on ties). -/
def bestCard (checked : List Cand) (rejected : List (Nat × Nat))
    (target_wanters : Nat) : Option Cand :=
  (checked.foldl (bestStep rejected target_wanters) (none, none)).1

/-- `select_suitable_card_for_trade` (card_selector.py, lines 162-297).

Randomness is made explicit: `do_cleanup` is the 10% coin for the cache
sweep, `shuffle` stands for `random.shuffle` (theorems constrain it to a
permutation), and `pick` stands for the `random.choice` over the unchecked
remainder (theorems constrain it to a member).  The function returns the
chosen `(instance_id, card_info)` pair, if any. -/
def select_suitable_card_for_trade (remote : Nat → Nat)
    (my_cards : List CardEntry) (target_card : TargetCard) (cache : WCache)
    (now : ℚ) (do_cleanup : Bool) (shuffle : List Cand → List Cand)
    (pick : List Cand → Option Cand) : Option (Nat × CardEntry) :=
  let cache0 := if do_cleanup then cleanup_old_entries cache now else cache
  let target_rank := targetRankStr target_card
  let target_wanters := targetWanters target_card
  let suitable_cards := suitableCardsFor my_cards target_rank
  if suitable_cards.isEmpty then
    none
  else
    let shuffled := shuffle suitable_cards
    match selectScan remote now target_wanters
        (min MAX_SELECTION_ATTEMPTS shuffled.length) shuffled cache0 [] with
    | (some c, _, _) => some (c.instance_id, c.card_info)
    | (none, rejected, _) =>
      if MAX_SELECTION_ATTEMPTS < shuffled.length then
        match pick (shuffled.drop MAX_SELECTION_ATTEMPTS) with
        | some sel => some (sel.instance_id, sel.card_info)
        | none => none
      else
        match bestCard (shuffled.take rejected.length) rejected
            target_wanters with
        | some best => some (best.instance_id, best.card_info)
        | none => none

/-! ## Cache lemmas -/

lemma cacheFind_erase (c : WCache) (k : Nat) :
    cacheFind (cacheErase c k) k = none := by
  induction c with
  | nil => simp [cacheFind, cacheErase]
  | cons p c ih =>
    by_cases h : p.1 = k
    · simpa [cacheErase, h] using ih
    · simpa [cacheFind, cacheErase, h] using ih

lemma cacheFind_append_right (c₁ c₂ : WCache) (k : Nat)
    (h : cacheFind c₁ k = none) :
    cacheFind (c₁ ++ c₂) k = cacheFind c₂ k := by
  induction c₁ with
  | nil => simp
  | cons p c ih =>
    by_cases hp : p.1 = k
    · simp [cacheFind, hp] at h
    · simp only [cacheFind, hp, if_false, List.cons_append]
      exact ih (by simpa [cacheFind, hp] using h)

lemma cacheFind_insert (c : WCache) (k : Nat) (e : CacheEntry) :
    cacheFind (cacheInsert c k e) k = some e := by
  unfold cacheInsert
  rw [cacheFind_append_right _ _ _ (cacheFind_erase c k)]
  simp [cacheFind]

lemma cacheFind_append (c₁ c₂ : WCache) (k : Nat) :
    cacheFind (c₁ ++ c₂) k =
      match cacheFind c₁ k with
      | some e => some e
      | none => cacheFind c₂ k := by
  induction c₁ with
  | nil => simp [cacheFind]
  | cons p c ih =>
    by_cases hp : p.1 = k
    · simp [cacheFind, hp]
    · simpa [cacheFind, hp] using ih

lemma cacheFind_erase_ne (c : WCache) (k k' : Nat) (h : k' ≠ k) :
    cacheFind (cacheErase c k) k' = cacheFind c k' := by
  induction c with
  | nil => simp [cacheErase]
  | cons p c ih =>
    simp only [cacheErase]
    by_cases hp : p.1 = k
    · have hp' : ¬ p.1 = k' := fun hh => h (hh ▸ hp)
      rw [if_pos hp, ih]
      simp [cacheFind, hp']
    · rw [if_neg hp]
      by_cases hp' : p.1 = k'
      · simp [cacheFind, hp']
      · simp [cacheFind, hp', ih]

lemma cacheFind_insert_ne (c : WCache) (k k' : Nat) (e : CacheEntry)
    (h : k' ≠ k) : cacheFind (cacheInsert c k e) k' = cacheFind c k' := by
  unfold cacheInsert
  rw [cacheFind_append, cacheFind_erase_ne c k k' h]
  cases cacheFind c k' with
  | none =>
    have hk : ¬ k = k' := fun hh => h hh.symm
    simp [cacheFind, hk]
  | some e' => simp

lemma find_set_card_info (cache : WCache) (now : ℚ) (id n : Nat)
    (info : CardEntry) :
    cacheFind (set_card_info cache now id n info) id
      = some (setEntryOf now id n info) :=
  cacheFind_insert _ _ _

lemma get_wanters_count_found (cache : WCache) (now : ℚ) (k : Nat)
    (e : CacheEntry) (hf : cacheFind cache k = some e) :
    get_wanters_count cache now k =
      if (CACHE_LIFETIME_HOURS : ℚ) * 3600 < now - e.timestamp then
        (none, cacheErase cache k)
      else
        (some e.wanters_count, cache) := by
  unfold get_wanters_count
  rw [hf]

lemma get_wanters_count_absent (cache : WCache) (now : ℚ) (k : Nat)
    (hf : cacheFind cache k = none) :
    get_wanters_count cache now k = (none, cache) := by
  unfold get_wanters_count
  rw [hf]

/-- C7: `CardWantersCache.set_card_info(id, n, info)` followed immediately by
`get_wanters_count(id)` returns `n`; and once more than the 24-hour lifetime
has elapsed since the entry's timestamp, `get_wanters_count(id)` returns
`None` and deletes the entry, so the key no longer appears in the cache. -/
theorem wanters_cache_set_then_get (cache : WCache) (now : ℚ) (id n : Nat)
    (info : CardEntry) (now' : ℚ)
    (h : (CACHE_LIFETIME_HOURS : ℚ) * 3600 < now' - now) :
    (get_wanters_count (set_card_info cache now id n info) now id).1
        = some n ∧
    (get_wanters_count (set_card_info cache now id n info) now' id).1
        = none ∧
    cacheFind
        (get_wanters_count (set_card_info cache now id n info) now' id).2
        id = none := by
  have hts : (setEntryOf now id n info).timestamp = now := rfl
  have hwc : (setEntryOf now id n info).wanters_count = n := rfl
  have hfound := get_wanters_count_found _ now id _ (find_set_card_info cache now id n info)
  have hfound' := get_wanters_count_found _ now' id _ (find_set_card_info cache now id n info)
  rw [hts] at hfound hfound'
  have hfresh : ¬ ((CACHE_LIFETIME_HOURS : ℚ) * 3600 < now - now) := by
    rw [sub_self]
    norm_num [CACHE_LIFETIME_HOURS]
  refine ⟨?_, ?_, ?_⟩
  · rw [hfound, if_neg hfresh, hwc]
  · rw [hfound', if_pos h]
  · rw [hfound', if_pos h]
    exact cacheFind_erase _ _

/-- C7 witness: a concrete set-then-get round trip and a concrete expiry. -/
theorem wanters_cache_set_then_get_witness :
    ((CACHE_LIFETIME_HOURS : ℚ) * 3600 < 100000 - 0) ∧
    ((get_wanters_count (set_card_info [] 0 5 7
          ⟨none, none, none, none, none, none, none, some 9⟩) 0 5).1
        = some 7 ∧
     (get_wanters_count (set_card_info [] 0 5 7
          ⟨none, none, none, none, none, none, none, some 9⟩) 100000 5).1
        = none ∧
     cacheFind
        (get_wanters_count (set_card_info [] 0 5 7
            ⟨none, none, none, none, none, none, none, some 9⟩) 100000 5).2
        5 = none) :=
  ⟨by norm_num [CACHE_LIFETIME_HOURS],
   wanters_cache_set_then_get [] 0 5 7
     ⟨none, none, none, none, none, none, none, some 9⟩ 100000
     (by norm_num [CACHE_LIFETIME_HOURS])⟩

/-! ## Wanters resolution stability

During one selector call the cache is read and written (evictions on expired
reads, `set_card_info` on every rejection), but the count resolved for a card
id never changes: a rejection stores exactly the count that was just
resolved, freshly stamped.  `resolveW` is the count resolved against a fixed
cache snapshot; `cacheAgrees` says a cache state still resolves every id to
the same count as the snapshot. -/

/-- The wanters count `get_card_wanters_count` resolves for a card id. -/
def resolveW (remote : Nat → Nat) (cache : WCache) (now : ℚ) (id : Nat) :
    Nat :=
  (get_card_wanters_count remote cache now id).1

def cacheAgrees (remote : Nat → Nat) (now : ℚ) (cache : WCache)
    (W : Nat → Nat) : Prop :=
  ∀ id, (get_card_wanters_count remote cache now id).1 = W id

lemma cacheAgrees_resolveW (remote : Nat → Nat) (cache : WCache) (now : ℚ) :
    cacheAgrees remote now cache (resolveW remote cache now) :=
  fun _ => rfl

lemma gcwc_fst_eq_of_find_eq (remote : Nat → Nat) (now : ℚ)
    (c₁ c₂ : WCache) (k : Nat) (h : cacheFind c₁ k = cacheFind c₂ k) :
    (get_card_wanters_count remote c₁ now k).1
      = (get_card_wanters_count remote c₂ now k).1 := by
  unfold get_card_wanters_count get_wanters_count
  rw [h]
  cases cacheFind c₂ k with
  | none => rfl
  | some e =>
    by_cases hex : (CACHE_LIFETIME_HOURS : ℚ) * 3600 < now - e.timestamp
    · simp [hex]
    · simp [hex]

/-- The assoc list stands for a Python dict, so its keys are distinct. -/
def cacheWF (c : WCache) : Prop := (c.map Prod.fst).Nodup

lemma cacheFind_eq_none_of_not_mem (c : WCache) (k : Nat)
    (h : k ∉ c.map Prod.fst) : cacheFind c k = none := by
  induction c with
  | nil => rfl
  | cons p c ih =>
    simp only [List.map_cons, List.mem_cons] at h
    push_neg at h
    have hk : ¬ p.1 = k := fun hh => h.1 hh.symm
    simp only [cacheFind, hk, if_false]
    exact ih h.2

lemma cleanup_sublist (c : WCache) (now : ℚ) :
    (cleanup_old_entries c now).Sublist c :=
  List.filter_sublist c

lemma cacheFind_cleanup (c : WCache) (now : ℚ) (k : Nat) (hWF : cacheWF c) :
    cacheFind (cleanup_old_entries c now) k =
      match cacheFind c k with
      | some e =>
        if (CACHE_LIFETIME_HOURS : ℚ) * 3600 < now - e.timestamp then none
        else some e
      | none => none := by
  induction c with
  | nil => simp [cleanup_old_entries, cacheFind]
  | cons p c ih =>
    have hWF' : cacheWF c := (List.nodup_cons.mp hWF).2
    have hnot : p.1 ∉ c.map Prod.fst := (List.nodup_cons.mp hWF).1
    have hstep : cleanup_old_entries (p :: c) now =
        if (CACHE_LIFETIME_HOURS : ℚ) * 3600 < now - p.2.timestamp then
          cleanup_old_entries c now
        else p :: cleanup_old_entries c now := by
      by_cases hex : (CACHE_LIFETIME_HOURS : ℚ) * 3600 < now - p.2.timestamp
      · rw [if_pos hex]
        simp only [cleanup_old_entries, List.filter_cons]
        simp [hex]
      · rw [if_neg hex]
        simp only [cleanup_old_entries, List.filter_cons]
        simp [hex]
    rw [hstep]
    by_cases hk : p.1 = k
    · subst hk
      have hcnone : cacheFind c p.1 = none :=
        cacheFind_eq_none_of_not_mem c p.1 hnot
      have hclean : cacheFind (cleanup_old_entries c now) p.1 = none :=
        cacheFind_eq_none_of_not_mem _ p.1 fun hmem =>
          hnot (((cleanup_sublist c now).map Prod.fst).subset hmem)
      by_cases hex : (CACHE_LIFETIME_HOURS : ℚ) * 3600 < now - p.2.timestamp
      · rw [if_pos hex, hclean]
        simp [cacheFind, hex]
      · rw [if_neg hex]
        simp [cacheFind, hex]
    · by_cases hex : (CACHE_LIFETIME_HOURS : ℚ) * 3600 < now - p.2.timestamp
      · rw [if_pos hex, ih hWF']
        simp [cacheFind, hk]
      · rw [if_neg hex]
        simp only [cacheFind, hk, if_false]
        exact ih hWF'

lemma cacheAgrees_cleanup (remote : Nat → Nat) (now : ℚ) (cache : WCache)
    (W : Nat → Nat) (hWF : cacheWF cache)
    (hA : cacheAgrees remote now cache W) :
    cacheAgrees remote now (cleanup_old_entries cache now) W := by
  intro id
  rw [← hA id]
  unfold get_card_wanters_count get_wanters_count
  rw [cacheFind_cleanup cache now id hWF]
  cases hf : cacheFind cache id with
  | none => rfl
  | some e =>
    by_cases hex : (CACHE_LIFETIME_HOURS : ℚ) * 3600 < now - e.timestamp
    · simp [hex]
    · simp [hex]

lemma cacheAgrees_after_get (remote : Nat → Nat) (now : ℚ) (cache : WCache)
    (W : Nat → Nat) (hA : cacheAgrees remote now cache W) (id : Nat) :
    cacheAgrees remote now (get_card_wanters_count remote cache now id).2
      W := by
  intro id'
  cases hf : cacheFind cache id with
  | none =>
    have h2 : (get_card_wanters_count remote cache now id).2 = cache := by
      unfold get_card_wanters_count get_wanters_count
      rw [hf]
    rw [h2]
    exact hA id'
  | some e =>
    by_cases hex : (CACHE_LIFETIME_HOURS : ℚ) * 3600 < now - e.timestamp
    · have h2 : (get_card_wanters_count remote cache now id).2
          = cacheErase cache id := by
        unfold get_card_wanters_count get_wanters_count
        rw [hf]
        simp [hex]
      rw [h2, ← hA id']
      by_cases hid : id' = id
      · subst hid
        unfold get_card_wanters_count get_wanters_count
        rw [cacheFind_erase, hf]
        simp [hex]
      · exact gcwc_fst_eq_of_find_eq remote now _ cache id'
          (cacheFind_erase_ne cache id id' hid)
    · have h2 : (get_card_wanters_count remote cache now id).2 = cache := by
        unfold get_card_wanters_count get_wanters_count
        rw [hf]
        simp [hex]
      rw [h2]
      exact hA id'

lemma cacheAgrees_after_set (remote : Nat → Nat) (now : ℚ) (cache : WCache)
    (W : Nat → Nat) (hA : cacheAgrees remote now cache W) (id : Nat)
    (v : Nat) (hv : v = W id) (info : CardEntry) :
    cacheAgrees remote now (set_card_info cache now id v info) W := by
  intro id'
  by_cases hid : id' = id
  · subst hid
    unfold get_card_wanters_count get_wanters_count
    rw [find_set_card_info]
    have hfresh : ¬ ((CACHE_LIFETIME_HOURS : ℚ) * 3600
        < now - (setEntryOf now id' v info).timestamp) := by
      show ¬ ((CACHE_LIFETIME_HOURS : ℚ) * 3600 < now - now)
      rw [sub_self]
      norm_num [CACHE_LIFETIME_HOURS]
    simp [hfresh]
    exact hv
  · rw [← hA id']
    exact gcwc_fst_eq_of_find_eq remote now _ cache id'
      (cacheFind_insert_ne cache id id' _ hid)

/-! ## Selection scan lemmas -/

lemma selectScan_fst_mem (remote : Nat → Nat) (now : ℚ) (tw : Nat) :
    ∀ (fuel : Nat) (l : List Cand) (cache : WCache)
      (rejected : List (Nat × Nat)) (c : Cand),
      (selectScan remote now tw fuel l cache rejected).1 = some c →
      c ∈ l := by
  intro fuel
  induction fuel with
  | zero =>
    intro l cache rejected c h
    simp [selectScan] at h
  | succ n ih =>
    intro l cache rejected c h
    cases l with
    | nil => simp [selectScan] at h
    | cons d rest =>
      simp only [selectScan] at h
      by_cases hacc : is_wanters_count_acceptable tw
          (get_card_wanters_count remote cache now d.card_id).1
      · simp only [hacc, if_true] at h
        exact (Option.some.injEq _ _ ▸ h) ▸ List.mem_cons_self d rest
      · simp only [hacc, Bool.false_eq_true, if_false] at h
        exact List.mem_cons_of_mem d (ih rest _ _ c h)

lemma selectScan_found (remote : Nat → Nat) (now : ℚ) (tw : Nat)
    (W : Nat → Nat) :
    ∀ (fuel : Nat) (l : List Cand) (cache : WCache)
      (rejected : List (Nat × Nat)) (c : Cand),
      cacheAgrees remote now cache W →
      (l.take fuel).find?
          (fun d => is_wanters_count_acceptable tw (W d.card_id)) = some c →
      (selectScan remote now tw fuel l cache rejected).1 = some c := by
  intro fuel
  induction fuel with
  | zero =>
    intro l cache rejected c _ hfind
    simp at hfind
  | succ n ih =>
    intro l cache rejected c hA hfind
    cases l with
    | nil => simp at hfind
    | cons d rest =>
      rw [List.take_succ_cons, List.find?_cons] at hfind
      have hres : (get_card_wanters_count remote cache now d.card_id).1
          = W d.card_id := hA d.card_id
      simp only [selectScan]
      by_cases hacc : is_wanters_count_acceptable tw (W d.card_id) = true
      · rw [hacc] at hfind
        simp only [hres, hacc, if_true]
        exact hfind
      · simp only [Bool.not_eq_true] at hacc
        rw [hacc] at hfind
        simp only [hres, hacc, Bool.false_eq_true, if_false]
        have hA' : cacheAgrees remote now
            (set_card_info (get_card_wanters_count remote cache now
                d.card_id).2 now d.card_id
              (get_card_wanters_count remote cache now d.card_id).1
              d.card_info) W := by
          apply cacheAgrees_after_set remote now _ W
            (cacheAgrees_after_get remote now cache W hA d.card_id)
          exact hres
        rw [hres] at hA'
        exact ih rest _ _ c hA' hfind

lemma selectScan_none (remote : Nat → Nat) (now : ℚ) (tw : Nat)
    (W : Nat → Nat) :
    ∀ (fuel : Nat) (l : List Cand) (cache : WCache)
      (rejected : List (Nat × Nat)),
      cacheAgrees remote now cache W →
      (∀ d ∈ l.take fuel,
        is_wanters_count_acceptable tw (W d.card_id) = false) →
      (selectScan remote now tw fuel l cache rejected).1 = none ∧
      (selectScan remote now tw fuel l cache rejected).2.1
        = rejected ++ (l.take fuel).map fun d => (d.card_id, W d.card_id) := by
  intro fuel
  induction fuel with
  | zero =>
    intro l cache rejected _ _
    simp [selectScan]
  | succ n ih =>
    intro l cache rejected hA hall
    cases l with
    | nil => simp [selectScan]
    | cons d rest =>
      rw [List.take_succ_cons] at hall
      have hres : (get_card_wanters_count remote cache now d.card_id).1
          = W d.card_id := hA d.card_id
      have haccd : is_wanters_count_acceptable tw (W d.card_id) = false :=
        hall d (List.mem_cons_self d _)
      simp only [selectScan, hres, haccd, Bool.false_eq_true, if_false]
      have hA' : cacheAgrees remote now
          (set_card_info (get_card_wanters_count remote cache now
              d.card_id).2 now d.card_id
            (get_card_wanters_count remote cache now d.card_id).1
            d.card_info) W := by
        apply cacheAgrees_after_set remote now _ W
          (cacheAgrees_after_get remote now cache W hA d.card_id)
        exact hres
      have := ih rest _ (rejected ++ [(d.card_id,
          (get_card_wanters_count remote cache now d.card_id).1)]) hA'
        (fun x hx => hall x (List.mem_cons_of_mem d hx))
      rw [hres] at this
      refine ⟨this.1, ?_⟩
      rw [this.2]
      simp [List.append_assoc]

/-! ## Closest-match fallback lemmas -/

lemma bestCard_fold_mem (rejected : List (Nat × Nat)) (tw : Nat) :
    ∀ (l : List Cand) (acc : Option Cand × Option Nat) (b : Cand),
      (l.foldl (bestStep rejected tw) acc).1 = some b →
      acc.1 = some b ∨ b ∈ l := by
  intro l
  induction l with
  | nil => intro acc b h; exact Or.inl h
  | cons d rest ih =>
    intro acc b h
    rcases ih (bestStep rejected tw acc d) b h with hstep | hmem
    · unfold bestStep at hstep
      cases hfind : rejected.find? fun p => p.1 = d.card_id with
      | none =>
        rw [hfind] at hstep
        exact Or.inl hstep
      | some p =>
        rw [hfind] at hstep
        dsimp only at hstep
        cases hacc2 : acc.2 with
        | none =>
          rw [hacc2] at hstep
          dsimp only at hstep
          simp at hstep
          exact Or.inr (hstep ▸ List.mem_cons_self d rest)
        | some bd =>
          rw [hacc2] at hstep
          dsimp only at hstep
          by_cases hd : (((p.2 : ℤ) - (tw : ℤ)).natAbs) < bd
          · rw [if_pos hd] at hstep
            simp at hstep
            exact Or.inr (hstep ▸ List.mem_cons_self d rest)
          · rw [if_neg hd] at hstep
            exact Or.inl hstep
    · exact Or.inr (List.mem_cons_of_mem d hmem)

lemma bestCard_mem (checked : List Cand) (rejected : List (Nat × Nat))
    (tw : Nat) (b : Cand) (h : bestCard checked rejected tw = some b) :
    b ∈ checked := by
  unfold bestCard at h
  rcases bestCard_fold_mem rejected tw checked (none, none) b h with h0 | hm
  · simp at h0
  · exact hm

lemma rejected_find?_eq (W : Nat → Nat) :
    ∀ (l : List Cand) (c : Cand), c ∈ l →
      ((l.map fun d => (d.card_id, W d.card_id)).find?
          fun p => p.1 = c.card_id)
        = some (c.card_id, W c.card_id) := by
  intro l
  induction l with
  | nil => intro c hc; cases hc
  | cons d rest ih =>
    intro c hc
    by_cases hd : d.card_id = c.card_id
    · rw [List.map_cons, List.find?_cons]
      simp [hd]
    · have hcr : c ∈ rest := by
        rcases List.mem_cons.mp hc with hh | hh
        · exact absurd (hh ▸ rfl) hd
        · exact hh
      rw [List.map_cons, List.find?_cons]
      have hfalse : decide (((d.card_id, W d.card_id) : Nat × Nat).1
          = c.card_id) = false := by simp [hd]
      rw [hfalse]
      exact ih c hcr

lemma bestCard_fold_argmin (W : Nat → Nat) (tw : Nat) (lfull : List Cand) :
    ∀ (l : List Cand), (∀ d ∈ l, d ∈ lfull) → ∀ b0 : Cand,
      ∃ b, l.foldl
          (bestStep (lfull.map fun d => (d.card_id, W d.card_id)) tw)
          (some b0, some (((W b0.card_id : ℤ) - (tw : ℤ)).natAbs))
        = (some b, some (((W b.card_id : ℤ) - (tw : ℤ)).natAbs)) ∧
      (b = b0 ∨ b ∈ l) ∧
      ((W b.card_id : ℤ) - (tw : ℤ)).natAbs
        ≤ ((W b0.card_id : ℤ) - (tw : ℤ)).natAbs ∧
      ∀ d ∈ l, ((W b.card_id : ℤ) - (tw : ℤ)).natAbs
        ≤ ((W d.card_id : ℤ) - (tw : ℤ)).natAbs := by
  intro l
  induction l with
  | nil =>
    intro _ b0
    exact ⟨b0, rfl, Or.inl rfl, le_refl _, fun d hd => absurd hd
      (List.not_mem_nil d)⟩
  | cons d rest ih =>
    intro hsub b0
    have hd : d ∈ lfull := hsub d (List.mem_cons_self d rest)
    have hsub' : ∀ x ∈ rest, x ∈ lfull :=
      fun x hx => hsub x (List.mem_cons_of_mem d hx)
    have hstep : bestStep (lfull.map fun x => (x.card_id, W x.card_id)) tw
        (some b0, some (((W b0.card_id : ℤ) - (tw : ℤ)).natAbs)) d
        = if ((W d.card_id : ℤ) - (tw : ℤ)).natAbs
            < ((W b0.card_id : ℤ) - (tw : ℤ)).natAbs then
            (some d, some (((W d.card_id : ℤ) - (tw : ℤ)).natAbs))
          else (some b0, some (((W b0.card_id : ℤ) - (tw : ℤ)).natAbs)) := by
      unfold bestStep
      rw [rejected_find?_eq W lfull d hd]
    by_cases hlt : ((W d.card_id : ℤ) - (tw : ℤ)).natAbs
        < ((W b0.card_id : ℤ) - (tw : ℤ)).natAbs
    · rw [List.foldl_cons, hstep, if_pos hlt]
      obtain ⟨b, hfold, hbmem, hble, hmin⟩ := ih hsub' d
      refine ⟨b, hfold, ?_, le_of_lt (lt_of_le_of_lt hble hlt), ?_⟩
      · rcases hbmem with hb | hb
        · exact Or.inr (hb ▸ List.mem_cons_self d rest)
        · exact Or.inr (List.mem_cons_of_mem d hb)
      · intro x hx
        rcases List.mem_cons.mp hx with hh | hh
        · exact hh ▸ hble
        · exact hmin x hh
    · rw [List.foldl_cons, hstep, if_neg hlt]
      obtain ⟨b, hfold, hbmem, hble, hmin⟩ := ih hsub' b0
      refine ⟨b, hfold, ?_, hble, ?_⟩
      · rcases hbmem with hb | hb
        · exact Or.inl hb
        · exact Or.inr (List.mem_cons_of_mem d hb)
      · intro x hx
        rcases List.mem_cons.mp hx with hh | hh
        · exact hh ▸ (le_trans hble (le_of_not_lt hlt))
        · exact hmin x hh

lemma bestCard_spec (W : Nat → Nat) (tw : Nat) (l : List Cand)
    (hne : l ≠ []) :
    ∃ b ∈ l, bestCard l (l.map fun d => (d.card_id, W d.card_id)) tw
        = some b ∧
      ∀ d ∈ l, ((W b.card_id : ℤ) - (tw : ℤ)).natAbs
        ≤ ((W d.card_id : ℤ) - (tw : ℤ)).natAbs := by
  cases l with
  | nil => exact absurd rfl hne
  | cons d rest =>
    unfold bestCard
    rw [List.foldl_cons]
    have hstep0 : bestStep ((d :: rest).map fun x =>
        (x.card_id, W x.card_id)) tw (none, none) d
        = (some d, some (((W d.card_id : ℤ) - (tw : ℤ)).natAbs)) := by
      unfold bestStep
      rw [rejected_find?_eq W (d :: rest) d (List.mem_cons_self d rest)]
    rw [hstep0]
    obtain ⟨b, hfold, hbmem, hble, hmin⟩ :=
      bestCard_fold_argmin W tw (d :: rest) rest
        (fun x hx => List.mem_cons_of_mem d hx) d
    refine ⟨b, ?_, ?_, ?_⟩
    · rcases hbmem with hb | hb
      · exact hb ▸ List.mem_cons_self d rest
      · exact List.mem_cons_of_mem d hb
    · rw [hfold]
    · intro x hx
      rcases List.mem_cons.mp hx with hh | hh
      · exact hh ▸ hble
      · exact hmin x hh

/-! ## Suitable-cards characterization -/

lemma mem_suitableCardsFor (my_cards : List CardEntry) (r : String)
    (c : Cand) (h : c ∈ suitableCardsFor my_cards r) :
    cardRankOf c.card_info = some r := by
  unfold suitableCardsFor at h
  rw [List.mem_filterMap] at h
  obtain ⟨e, _, hmap⟩ := h
  by_cases hr : cardRankOf e = some r
  · rw [if_pos hr] at hmap
    cases hinst : entryInstanceId e with
    | none => rw [hinst] at hmap; cases hmap
    | some inst =>
      rw [hinst] at hmap
      cases hcid : cardIdOf e with
      | none => rw [hcid] at hmap; cases hmap
      | some cid =>
        rw [hcid] at hmap
        have : c = ⟨inst, cid, e⟩ := (Option.some.injEq _ _).mp hmap.symm
        rw [this]
        exact hr
  · rw [if_neg hr] at hmap
    cases hmap

lemma suitableCardsFor_nil (my_cards : List CardEntry) (r : String)
    (h : ∀ e ∈ my_cards, cardRankOf e ≠ some r) :
    suitableCardsFor my_cards r = [] := by
  unfold suitableCardsFor
  rw [List.filterMap_eq_nil_iff]
  intro e he
  rw [if_neg (h e he)]

/-! ## Concrete sample data for witnesses and counterexamples -/

/-- A flat inventory entry with the given rank, card id and instance id. -/
def flatEntry (r : String) (cid inst : Nat) : CardEntry :=
  { rank := some r, grade := none, card := none, card_id := some cid,
    id := none, name := none, title := none, instId := some inst }

/-- A rank-"B" target card wanting 10. -/
def targetB10 : TargetCard :=
  { rank := some "B", wanters_count := some 10, card_id := some 42,
    name := some "X" }

/-! ## Claim C8 -/

lemma head?_mem {α : Type} (l : List α) (x : α) (h : l.head? = some x) :
    x ∈ l := by
  cases l with
  | nil => cases h
  | cons a rest =>
    rw [List.head?_cons] at h
    exact (Option.some.injEq _ _).mp h ▸ List.mem_cons_self a rest

/-- C8: every instance returned by `select_suitable_card_for_trade` carries
the target card's rank, and when no inventory entry matches the target's
rank the function returns `None`. -/
theorem selector_rank_matches (remote : Nat → Nat)
    (my_cards : List CardEntry) (target_card : TargetCard) (cache : WCache)
    (now : ℚ) (do_cleanup : Bool) (shuffle : List Cand → List Cand)
    (pick : List Cand → Option Cand)
    (hshuf : ∀ l : List Cand, (shuffle l).Perm l)
    (hpick : ∀ (l : List Cand) (x : Cand), pick l = some x → x ∈ l) :
    (∀ inst info,
        select_suitable_card_for_trade remote my_cards target_card cache
          now do_cleanup shuffle pick = some (inst, info) →
        cardRankOf info = some (targetRankStr target_card)) ∧
    ((∀ e ∈ my_cards, cardRankOf e ≠ some (targetRankStr target_card)) →
      select_suitable_card_for_trade remote my_cards target_card cache now
        do_cleanup shuffle pick = none) := by
  constructor
  · intro inst info hsel
    unfold select_suitable_card_for_trade at hsel
    dsimp only at hsel
    have hmem : ∃ c ∈ suitableCardsFor my_cards (targetRankStr target_card),
        info = c.card_info := by
      by_cases hemp :
          (suitableCardsFor my_cards (targetRankStr target_card)).isEmpty
      · rw [if_pos hemp] at hsel
        cases hsel
      · rw [if_neg hemp] at hsel
        rcases hscan : selectScan remote now (targetWanters target_card)
            (min MAX_SELECTION_ATTEMPTS
              (shuffle (suitableCardsFor my_cards
                (targetRankStr target_card))).length)
            (shuffle (suitableCardsFor my_cards (targetRankStr target_card)))
            (if do_cleanup then cleanup_old_entries cache now else cache) []
          with ⟨o, rej, cf⟩
        rw [hscan] at hsel
        cases o with
        | some c =>
          have hc1 : (selectScan remote now (targetWanters target_card)
              (min MAX_SELECTION_ATTEMPTS
                (shuffle (suitableCardsFor my_cards
                  (targetRankStr target_card))).length)
              (shuffle (suitableCardsFor my_cards
                (targetRankStr target_card)))
              (if do_cleanup then cleanup_old_entries cache now else cache)
              []).1 = some c := by rw [hscan]
          have hcmem := (hshuf _).mem_iff.mp
            (selectScan_fst_mem remote now _ _ _ _ _ c hc1)
          simp only at hsel
          refine ⟨c, hcmem, ?_⟩
          have := (Option.some.injEq _ _).mp hsel
          exact (congrArg Prod.snd this).symm
        | none =>
          simp only at hsel
          by_cases hlen : MAX_SELECTION_ATTEMPTS <
              (shuffle (suitableCardsFor my_cards
                (targetRankStr target_card))).length
          · rw [if_pos hlen] at hsel
            cases hp : pick ((shuffle (suitableCardsFor my_cards
                (targetRankStr target_card))).drop
                  MAX_SELECTION_ATTEMPTS) with
            | none => rw [hp] at hsel; cases hsel
            | some sel =>
              rw [hp] at hsel
              have hselmem : sel ∈ shuffle (suitableCardsFor my_cards
                  (targetRankStr target_card)) :=
                List.drop_subset _ _ (hpick _ _ hp)
              refine ⟨sel, (hshuf _).mem_iff.mp hselmem, ?_⟩
              have := (Option.some.injEq _ _).mp hsel
              exact (congrArg Prod.snd this).symm
          · rw [if_neg hlen] at hsel
            cases hb : bestCard ((shuffle (suitableCardsFor my_cards
                (targetRankStr target_card))).take rej.length) rej
                (targetWanters target_card) with
            | none => rw [hb] at hsel; cases hsel
            | some best =>
              rw [hb] at hsel
              have hbm : best ∈ shuffle (suitableCardsFor my_cards
                  (targetRankStr target_card)) :=
                List.take_subset _ _ (bestCard_mem _ _ _ _ hb)
              refine ⟨best, (hshuf _).mem_iff.mp hbm, ?_⟩
              have := (Option.some.injEq _ _).mp hsel
              exact (congrArg Prod.snd this).symm
    obtain ⟨c, hcmem, hinfo⟩ := hmem
    rw [hinfo]
    exact mem_suitableCardsFor my_cards _ c hcmem
  · intro hno
    unfold select_suitable_card_for_trade
    dsimp only
    rw [suitableCardsFor_nil my_cards _ hno]
    rfl

/-- C8 witness: a rank-"C"-only inventory yields `None` for a rank-"B"
target. -/
theorem selector_rank_matches_witness :
    (∀ e ∈ [flatEntry "C" 9 4],
      cardRankOf e ≠ some (targetRankStr targetB10)) ∧
    select_suitable_card_for_trade (fun _ => 0) [flatEntry "C" 9 4]
      targetB10 [] 0 false (fun l => l) List.head? = none := by
  have hno : ∀ e ∈ [flatEntry "C" 9 4],
      cardRankOf e ≠ some (targetRankStr targetB10) := by decide
  exact ⟨hno,
    (selector_rank_matches (fun _ => 0) [flatEntry "C" 9 4] targetB10 [] 0
      false (fun l => l) List.head? (fun l => List.Perm.refl l)
      head?_mem).2 hno⟩

/-! ## Claim C1 -/

/-- Remote wanters counts for the C1 counterexample: card design 100 has 11
wanters, design 200 has 2. -/
def remoteC1 : Nat → Nat :=
  fun id => if id = 100 then 11 else if id = 200 then 2 else 0

/-- C1 counterexample: the target wants 10; candidate design 200 resolves to
2 wanters, so a candidate satisfying `wanters_count ≤ target.wanters_count`
exists, yet the selector accepts the first candidate (design 100, 11
wanters, inside the plus-10-percent/minus-30-percent tolerance band) whose
count exceeds the target's. -/
theorem selector_leq_rule_counterexample :
    (∃ d ∈ suitableCardsFor [flatEntry "B" 100 7, flatEntry "B" 200 8]
        (targetRankStr targetB10),
      resolveW remoteC1 [] 0 d.card_id ≤ targetWanters targetB10) ∧
    select_suitable_card_for_trade remoteC1
      [flatEntry "B" 100 7, flatEntry "B" 200 8] targetB10 [] 0 false
      (fun l => l) List.head? = some (7, flatEntry "B" 100 7) ∧
    ¬ (resolveW remoteC1 [] 0 100 ≤ targetWanters targetB10) := by
  decide

/-- C1 (amended): the acceptance rule is the tolerance band of
`is_wanters_count_acceptable`, not `wanters_count ≤ target.wanters_count`,
and only the first `min MAX_SELECTION_ATTEMPTS n` shuffled candidates are
scanned: the selector returns the first scanned candidate whose resolved
count is acceptable. -/
theorem selector_accepts_first_band_match (remote : Nat → Nat)
    (my_cards : List CardEntry) (target_card : TargetCard) (cache : WCache)
    (now : ℚ) (do_cleanup : Bool) (shuffle : List Cand → List Cand)
    (pick : List Cand → Option Cand) (c : Cand)
    (hWF : cacheWF cache)
    (hshuf : ∀ l : List Cand, (shuffle l).Perm l)
    (hfind : ((shuffle (suitableCardsFor my_cards
        (targetRankStr target_card))).take
          (min MAX_SELECTION_ATTEMPTS
            (shuffle (suitableCardsFor my_cards
              (targetRankStr target_card))).length)).find?
        (fun d => is_wanters_count_acceptable (targetWanters target_card)
          (resolveW remote cache now d.card_id)) = some c) :
    select_suitable_card_for_trade remote my_cards target_card cache now
      do_cleanup shuffle pick = some (c.instance_id, c.card_info) := by
  have hA0 : cacheAgrees remote now
      (if do_cleanup then cleanup_old_entries cache now else cache)
      (resolveW remote cache now) := by
    by_cases hdc : do_cleanup
    · rw [if_pos hdc]
      exact cacheAgrees_cleanup remote now cache _ hWF
        (cacheAgrees_resolveW remote cache now)
    · rw [if_neg hdc]
      exact cacheAgrees_resolveW remote cache now
  have hne : ¬ (suitableCardsFor my_cards
      (targetRankStr target_card)).isEmpty := by
    intro hemp
    have hS : suitableCardsFor my_cards (targetRankStr target_card) = [] :=
      List.isEmpty_iff.mp hemp
    rw [hS, List.Perm.eq_nil (hshuf [])] at hfind
    simp at hfind
  unfold select_suitable_card_for_trade
  dsimp only
  rw [if_neg hne]
  have h1 := selectScan_found remote now (targetWanters target_card)
    (resolveW remote cache now)
    (min MAX_SELECTION_ATTEMPTS
      (shuffle (suitableCardsFor my_cards
        (targetRankStr target_card))).length)
    (shuffle (suitableCardsFor my_cards (targetRankStr target_card)))
    (if do_cleanup then cleanup_old_entries cache now else cache) [] c
    hA0 hfind
  rcases hscan : selectScan remote now (targetWanters target_card)
      (min MAX_SELECTION_ATTEMPTS
        (shuffle (suitableCardsFor my_cards
          (targetRankStr target_card))).length)
      (shuffle (suitableCardsFor my_cards (targetRankStr target_card)))
      (if do_cleanup then cleanup_old_entries cache now else cache) []
    with ⟨o, rej, cf⟩
  rw [hscan] at h1
  dsimp only at h1
  cases o with
  | none => cases h1
  | some c' =>
    have : c' = c := (Option.some.injEq _ _).mp h1
    rw [this]

/-- C1 witness: a single in-band candidate (9 wanters against a target of
10) is found by the scan and returned. -/
theorem selector_accepts_first_band_match_witness :
    (List.find?
        (fun d => is_wanters_count_acceptable (targetWanters targetB10)
          (resolveW (fun _ => 9) [] 0 d.card_id))
        (List.take
          (min MAX_SELECTION_ATTEMPTS
            (suitableCardsFor [flatEntry "B" 300 9]
              (targetRankStr targetB10)).length)
          (suitableCardsFor [flatEntry "B" 300 9]
            (targetRankStr targetB10)))
      = some ⟨9, 300, flatEntry "B" 300 9⟩) ∧
    select_suitable_card_for_trade (fun _ => 9) [flatEntry "B" 300 9]
      targetB10 [] 0 false (fun l => l) List.head?
      = some (9, flatEntry "B" 300 9) :=
  ⟨by decide,
   selector_accepts_first_band_match (fun _ => 9) [flatEntry "B" 300 9]
     targetB10 [] 0 false (fun l => l) List.head?
     ⟨9, 300, flatEntry "B" 300 9⟩ List.nodup_nil
     (fun l => List.Perm.refl l) (by decide)⟩

/-! ## Claim C5 -/

/-- Eleven rank-"B" inventory entries (designs 201-211). -/
def myElevenB : List CardEntry :=
  [flatEntry "B" 201 1, flatEntry "B" 202 2, flatEntry "B" 203 3,
   flatEntry "B" 204 4, flatEntry "B" 205 5, flatEntry "B" 206 6,
   flatEntry "B" 207 7, flatEntry "B" 208 8, flatEntry "B" 209 9,
   flatEntry "B" 210 10, flatEntry "B" 211 11]

/-- Remote wanters counts for the C5 counterexample: design 201 has 20
wanters (distance 10 from the target), design 211 has 1000 (distance 990),
the rest 100. -/
def remoteC5 : Nat → Nat :=
  fun id => if id = 201 then 20 else if id = 211 then 1000 else 100

/-- C5 counterexample: with eleven candidates and none acceptable, the
selector returns a random card from the unchecked remainder (design 211,
distance 990) instead of the candidate minimizing the absolute distance
(design 201, distance 10). -/
theorem selector_closest_match_counterexample :
    (∀ d ∈ suitableCardsFor myElevenB (targetRankStr targetB10),
      is_wanters_count_acceptable (targetWanters targetB10)
        (resolveW remoteC5 [] 0 d.card_id) = false) ∧
    select_suitable_card_for_trade remoteC5 myElevenB targetB10 [] 0 false
      (fun l => l) List.head? = some (11, flatEntry "B" 211 11) ∧
    (∃ d ∈ suitableCardsFor myElevenB (targetRankStr targetB10),
      ((resolveW remoteC5 [] 0 d.card_id : ℤ)
          - (targetWanters targetB10 : ℤ)).natAbs
        < ((resolveW remoteC5 [] 0 211 : ℤ)
          - (targetWanters targetB10 : ℤ)).natAbs) := by
  decide

/-- C5 (amended): when at most `MAX_SELECTION_ATTEMPTS` rank-matching
candidates exist (so the scan checks them all) and none is acceptable, the
selector returns a candidate minimizing the absolute distance between its
resolved wanters count and the target's (earliest in scan order on ties).
With more candidates than that, the fallback is instead a random unchecked
candidate (see the counterexample). -/
theorem selector_closest_match_when_all_scanned (remote : Nat → Nat)
    (my_cards : List CardEntry) (target_card : TargetCard) (cache : WCache)
    (now : ℚ) (do_cleanup : Bool) (shuffle : List Cand → List Cand)
    (pick : List Cand → Option Cand)
    (hWF : cacheWF cache)
    (hshuf : ∀ l : List Cand, (shuffle l).Perm l)
    (hlen : (suitableCardsFor my_cards (targetRankStr target_card)).length
      ≤ MAX_SELECTION_ATTEMPTS)
    (hne : suitableCardsFor my_cards (targetRankStr target_card) ≠ [])
    (hnoacc : ∀ d ∈ suitableCardsFor my_cards (targetRankStr target_card),
      is_wanters_count_acceptable (targetWanters target_card)
        (resolveW remote cache now d.card_id) = false) :
    ∃ b ∈ suitableCardsFor my_cards (targetRankStr target_card),
      select_suitable_card_for_trade remote my_cards target_card cache now
        do_cleanup shuffle pick = some (b.instance_id, b.card_info) ∧
      ∀ d ∈ suitableCardsFor my_cards (targetRankStr target_card),
        ((resolveW remote cache now b.card_id : ℤ)
            - (targetWanters target_card : ℤ)).natAbs
          ≤ ((resolveW remote cache now d.card_id : ℤ)
            - (targetWanters target_card : ℤ)).natAbs := by
  have hA0 : cacheAgrees remote now
      (if do_cleanup then cleanup_old_entries cache now else cache)
      (resolveW remote cache now) := by
    by_cases hdc : do_cleanup
    · rw [if_pos hdc]
      exact cacheAgrees_cleanup remote now cache _ hWF
        (cacheAgrees_resolveW remote cache now)
    · rw [if_neg hdc]
      exact cacheAgrees_resolveW remote cache now
  have hperm := hshuf (suitableCardsFor my_cards (targetRankStr target_card))
  have hlenS : (shuffle (suitableCardsFor my_cards
      (targetRankStr target_card))).length
      = (suitableCardsFor my_cards (targetRankStr target_card)).length :=
    hperm.length_eq
  have hfuel : min MAX_SELECTION_ATTEMPTS
      (shuffle (suitableCardsFor my_cards
        (targetRankStr target_card))).length
      = (shuffle (suitableCardsFor my_cards
        (targetRankStr target_card))).length :=
    min_eq_right (hlenS ▸ hlen)
  have hnoaccS : ∀ d ∈ (shuffle (suitableCardsFor my_cards
      (targetRankStr target_card))).take
        (min MAX_SELECTION_ATTEMPTS
          (shuffle (suitableCardsFor my_cards
            (targetRankStr target_card))).length),
      is_wanters_count_acceptable (targetWanters target_card)
        (resolveW remote cache now d.card_id) = false :=
    fun d hd => hnoacc d (hperm.mem_iff.mp (List.take_subset _ _ hd))
  have hscanNone := selectScan_none remote now (targetWanters target_card)
    (resolveW remote cache now)
    (min MAX_SELECTION_ATTEMPTS
      (shuffle (suitableCardsFor my_cards
        (targetRankStr target_card))).length)
    (shuffle (suitableCardsFor my_cards (targetRankStr target_card)))
    (if do_cleanup then cleanup_old_entries cache now else cache) []
    hA0 hnoaccS
  have hSne : shuffle (suitableCardsFor my_cards
      (targetRankStr target_card)) ≠ [] := by
    intro h
    exact hne (List.Perm.eq_nil (h ▸ hperm).symm)
  obtain ⟨b, hbmem, hbest, hmin⟩ :=
    bestCard_spec (resolveW remote cache now) (targetWanters target_card)
      (shuffle (suitableCardsFor my_cards (targetRankStr target_card))) hSne
  refine ⟨b, hperm.mem_iff.mp hbmem, ?_, ?_⟩
  · have hnemp : ¬ (suitableCardsFor my_cards
        (targetRankStr target_card)).isEmpty := by
      intro h
      exact hne (List.isEmpty_iff.mp h)
    unfold select_suitable_card_for_trade
    dsimp only
    rw [if_neg hnemp]
    rcases hscan : selectScan remote now (targetWanters target_card)
        (min MAX_SELECTION_ATTEMPTS
          (shuffle (suitableCardsFor my_cards
            (targetRankStr target_card))).length)
        (shuffle (suitableCardsFor my_cards (targetRankStr target_card)))
        (if do_cleanup then cleanup_old_entries cache now else cache) []
      with ⟨o, rej, cf⟩
    rw [hscan] at hscanNone
    dsimp only at hscanNone
    obtain ⟨ho, hrej⟩ := hscanNone
    subst ho
    rw [List.nil_append, hfuel, List.take_length] at hrej
    subst hrej
    dsimp only
    have hnlt : ¬ MAX_SELECTION_ATTEMPTS <
        (shuffle (suitableCardsFor my_cards
          (targetRankStr target_card))).length :=
      not_lt.mpr (hlenS ▸ hlen)
    rw [if_neg hnlt, List.length_map, List.take_length, hbest]
  · intro d hd
    exact hmin d (hperm.mem_iff.mpr hd)

/-- C5 witness: two out-of-band candidates (100 and 20 wanters against a
target of 10); the selector falls back to the closer one. -/
theorem selector_closest_match_when_all_scanned_witness :
    ((suitableCardsFor [flatEntry "B" 221 21, flatEntry "B" 222 22]
        (targetRankStr targetB10)).length ≤ MAX_SELECTION_ATTEMPTS) ∧
    (suitableCardsFor [flatEntry "B" 221 21, flatEntry "B" 222 22]
        (targetRankStr targetB10) ≠ []) ∧
    (∀ d ∈ suitableCardsFor [flatEntry "B" 221 21, flatEntry "B" 222 22]
        (targetRankStr targetB10),
      is_wanters_count_acceptable (targetWanters targetB10)
        (resolveW (fun id => if id = 222 then 20 else 100) [] 0 d.card_id)
        = false) ∧
    (∃ b ∈ suitableCardsFor [flatEntry "B" 221 21, flatEntry "B" 222 22]
        (targetRankStr targetB10),
      select_suitable_card_for_trade (fun id => if id = 222 then 20 else 100)
        [flatEntry "B" 221 21, flatEntry "B" 222 22] targetB10 [] 0 false
        (fun l => l) List.head? = some (b.instance_id, b.card_info) ∧
      ∀ d ∈ suitableCardsFor [flatEntry "B" 221 21, flatEntry "B" 222 22]
          (targetRankStr targetB10),
        ((resolveW (fun id => if id = 222 then 20 else 100) [] 0
            b.card_id : ℤ) - (targetWanters targetB10 : ℤ)).natAbs
          ≤ ((resolveW (fun id => if id = 222 then 20 else 100) [] 0
            d.card_id : ℤ) - (targetWanters targetB10 : ℤ)).natAbs) :=
  ⟨by decide, by decide, by decide,
   selector_closest_match_when_all_scanned
     (fun id => if id = 222 then 20 else 100)
     [flatEntry "B" 221 21, flatEntry "B" 222 22] targetB10 [] 0 false
     (fun l => l) List.head? List.nodup_nil (fun l => List.Perm.refl l)
     (by decide) (by decide) (by decide)⟩

/-! ## Trade dispatcher (trade.py, `create_trade_via_api`)

The HTTP POST is an oracle: `none` stands for a raised
`requests.RequestException`, `some r` for a received response.  The JSON
body is abstracted to the exact features the code tests: the truthiness of
`j.get("success")`, `j.get("ok")` and of a nested `trade` dict's `id`, plus
the lowercased `json.dumps(j)` text (`dump_lower`); `json := none` models a
`ValueError` from `r.json()`.  `text_lower` is `(r.text or "").lower()`. -/

structure TradeJson where
  success : Bool
  ok : Bool
  trade_id : Bool
  dump_lower : String
  deriving Repr, DecidableEq

structure TradeResp where
  status : Nat
  location : String
  json : Option TradeJson
  text_lower : String
  deriving Repr, DecidableEq

/-- The JSON success test of `create_trade_via_api` (trade.py, lines
346-352): explicit success flag, `ok` flag, nested trade id, or one of the
three locale-specific confirmation phrases in the dumped body. -/
def tradeJsonOk (j : TradeJson) : Bool :=
  j.success || j.ok || j.trade_id ||
    pyIn "успеш" j.dump_lower || pyIn "отправ" j.dump_lower ||
    pyIn "создан" j.dump_lower

/-- `create_trade_via_api` (trade.py, lines 321-382): primary form-encoded
POST, then — when the primary outcome is ambiguous — a secondary
JSON-encoded POST of the same payload.  Success layers, in order: redirect
to a trade path, JSON success signals, confirmation phrases in the body
text; the secondary response's text is only checked for the first phrase
(line 378). -/
def create_trade_via_api (primary secondary : Option TradeResp) : Bool :=
  match primary with
  | none => false
  | some r =>
    if (r.status = 301 ∨ r.status = 302) ∧ pyIn "/trades/" r.location then
      true
    else if (match r.json with
        | some j => tradeJsonOk j
        | none => false) then
      true
    else if pyIn "успеш" r.text_lower || pyIn "отправ" r.text_lower ||
        pyIn "создан" r.text_lower then
      true
    else
      match secondary with
      | none => false
      | some r2 =>
        if (r2.status = 301 ∨ r2.status = 302) ∧
            pyIn "/trades/" r2.location then
          true
        else if (match r2.json with
            | some j => tradeJsonOk j
            | none => false) then
          true
        else if pyIn "успеш" r2.text_lower then
          true
        else
          false

/-- C10: a 301/302 response to the primary submission whose `Location`
header contains `/trades/` is reported as success, whatever the response
body, the JSON parse outcome, and the secondary attempt. -/
theorem create_trade_redirect_success (r : TradeResp)
    (secondary : Option TradeResp)
    (hst : r.status = 301 ∨ r.status = 302)
    (hloc : pyIn "/trades/" r.location = true) :
    create_trade_via_api (some r) secondary = true := by
  unfold create_trade_via_api
  dsimp only
  rw [if_pos ⟨hst, hloc⟩]

/-- C10 witness: HTTP 302 with `Location: /trades/123` and an unparseable
body reports success. -/
theorem create_trade_redirect_success_witness :
    (((302 : Nat) = 301 ∨ (302 : Nat) = 302) ∧
      pyIn "/trades/" "/trades/123" = true) ∧
    create_trade_via_api (some ⟨302, "/trades/123", none, ""⟩) none
      = true :=
  ⟨⟨Or.inr rfl, by decide⟩,
   create_trade_redirect_success ⟨302, "/trades/123", none, ""⟩ none
     (Or.inr rfl) (by decide)⟩

/-! ## Orchestration loop (trade.py, `send_trades_to_online_owners`)

The loop drives one owner at a time: skip self, locate the partner's
instance, pick a random own instance, dispatch (or simulate in dry-run),
and keep statistics.  External effects are oracles indexed by the running
owner counter `k`: `findPartner`/`findDur` are the result and wall-clock
duration of `find_partner_card_instance`, `choice` seeds `random.choice`,
`apiPrimary`/`apiSecondary` feed `create_trade_via_api`,
`formFound`/`formSuccess` are the outcomes of `trade_form_info` and
`submit_trade_form` (both absorb their network errors and return
falsy/False), `dispatchDur` is the wall-clock duration of the dispatch
calls and `jitter` the `random.uniform(0.5, 2.0)` delay.  Wall-clock time,
the rate-limiter mark `last_trade_time`, the dispatch intervals
(start/end), the dry-run simulation instants and the offered instance
triples are threaded through `LoopState` so that the temporal claims can be
stated. -/

/-- Constant `MIN_TRADE_DELAY` from trade.py (line 562). -/
def MIN_TRADE_DELAY : ℚ := 11

/-- `instances_any` (trade.py, lines 530-536): every truthy instance id in
the list. -/
def instances_any (cards : List CardEntry) : List Nat :=
  cards.filterMap entryInstanceId

/-- The loop's flat rank extraction
`(c.get("rank") or c.get("grade") or "").strip()` (trade.py, line 542). -/
def loopRankOf (c : CardEntry) : String :=
  pyStrip ((pyOrS c.rank (pyOrS c.grade none)).getD "")

/-- The pool of own instances offered for trade (trade.py, lines 538-549):
rank-matching instances when the target has a rank and some match,
otherwise every instance in the inventory. -/
def myInstancesPool (my_cards : List CardEntry) (t : TargetCard) :
    List Nat :=
  let rank := targetRankStr t
  let ranked :=
    if rank = "" then []
    else my_cards.filterMap fun c =>
      if loopRankOf c = rank then entryInstanceId c else none
  if ranked = [] then instances_any my_cards else ranked

structure TradeEnv where
  findPartner : Nat → Option Nat
  findDur : Nat → ℚ
  choice : Nat → Nat
  apiPrimary : Nat → Option TradeResp
  apiSecondary : Nat → Option TradeResp
  formFound : Nat → Bool
  formSuccess : Nat → Bool
  dispatchDur : Nat → ℚ
  jitter : Nat → ℚ

structure LoopState where
  stats : List (String × Nat)
  time : ℚ
  last : ℚ
  k : Nat
  disp : List (ℚ × ℚ)
  sims : List ℚ
  attempts : List (Nat × Nat × Nat)
  deriving DecidableEq

/-- The statistics dictionary as initialized (trade.py, lines 518-526). -/
def statsInit : List (String × Nat) :=
  [("checked_pages", 0), ("owners_seen", 0), ("trades_attempted", 0),
   ("trades_succeeded", 0), ("skipped_no_my_cards", 0), ("skipped_self", 0),
   ("skipped_no_instance", 0)]

/-- `stats[key] += 1` for a key already present. -/
def bump (s : List (String × Nat)) (key : String) : List (String × Nat) :=
  s.map fun p => if p.1 = key then (p.1, p.2 + 1) else p

/-- `stats[key] = v` for a key already present. -/
def setStat (s : List (String × Nat)) (key : String) (v : Nat) :
    List (String × Nat) :=
  s.map fun p => if p.1 = key then (p.1, v) else p

/-- Dictionary lookup in the statistics. -/
def statLookup (s : List (String × Nat)) (key : String) : Option Nat :=
  (s.find? fun p => p.1 = key).map Prod.snd

/-- One owner of `send_trades_to_online_owners` (trade.py, lines 578-670). -/
def processOwner (env : TradeEnv) (dry_run use_api : Bool)
    (my_user_id : String) (pool : List Nat) (s : LoopState)
    (owner_id : Nat) : LoopState :=
  let s := { s with stats := bump s.stats "owners_seen" }
  if toString owner_id = my_user_id then
    { s with stats := bump s.stats "skipped_self" }
  else
    let s := { s with time := s.time + env.findDur s.k }
    match env.findPartner s.k with
    | none =>
      { s with stats := bump s.stats "skipped_no_instance", k := s.k + 1 }
    | some his_inst =>
      let my_inst := pool.getD (env.choice s.k % pool.length) 0
      let s := { s with stats := bump s.stats "trades_attempted",
                        attempts := s.attempts
                          ++ [(my_inst, owner_id, his_inst)] }
      if dry_run then
        -- the simulated dispatch (the DRY-RUN report) happens first, the
        -- rate-limit wait after it; `last_trade_time` is stamped after the
        -- wait (lines 607-619)
        let t0 := s.time
        let s := { s with sims := s.sims ++ [t0] }
        let t1 := if t0 - s.last < MIN_TRADE_DELAY then
            s.last + MIN_TRADE_DELAY
          else t0
        { s with time := t1, last := t1, k := s.k + 1 }
      else
        -- real dispatch: wait first (lines 621-628), then the API call and
        -- the form fallback (lines 634-655), then stamp `last_trade_time`
        -- (line 664) and sleep the random jitter (lines 666-670)
        let t0 := s.time
        let t1 := if t0 - s.last < MIN_TRADE_DELAY then
            s.last + MIN_TRADE_DELAY
          else t0
        let success0 :=
          if use_api then
            create_trade_via_api (env.apiPrimary s.k) (env.apiSecondary s.k)
          else false
        let success :=
          if success0 then true
          else env.formFound s.k && env.formSuccess s.k
        let tEnd := t1 + env.dispatchDur s.k
        let stats2 :=
          if success then bump s.stats "trades_succeeded" else s.stats
        { s with stats := stats2, disp := s.disp ++ [(t1, tEnd)],
                 last := tEnd, time := tEnd + env.jitter s.k, k := s.k + 1 }

/-- One page of `send_trades_to_online_owners` (trade.py, lines 566-576). -/
def processPage (env : TradeEnv) (dry_run use_api : Bool)
    (my_user_id : String) (pool : List Nat) (s : LoopState)
    (page : Nat × List Nat) : LoopState :=
  let s := { s with stats := bump s.stats "checked_pages" }
  page.2.foldl (processOwner env dry_run use_api my_user_id pool) s

/-- `send_trades_to_online_owners` (trade.py, lines 503-677).  The target's
`card_id` and `name` reach only `find_partner_card_instance`, which is the
`findPartner` oracle here; `my_user_id` is the profile's id rendered with
`str`. -/
def send_trades_to_online_owners (env : TradeEnv) (my_user_id : String)
    (target_card : TargetCard) (my_cards : List CardEntry)
    (pages : List (Nat × List Nat)) (dry_run use_api : Bool) (t0 : ℚ) :
    LoopState :=
  let pool := myInstancesPool my_cards target_card
  let init : LoopState := ⟨statsInit, t0, 0, 0, [], [], []⟩
  if pool = [] then
    { init with stats := setStat init.stats "skipped_no_my_cards" 1 }
  else
    pages.foldl (processPage env dry_run use_api my_user_id pool) init

/-! ## Statistics lemmas -/

lemma statLookup_bump_self (s : List (String × Nat)) (key : String)
    (n : Nat) (h : statLookup s key = some n) :
    statLookup (bump s key) key = some (n + 1) := by
  induction s with
  | nil => simp [statLookup] at h
  | cons p rest ih =>
    by_cases hp : p.1 = key
    · simp [statLookup, bump, List.find?_cons, hp] at h ⊢
      omega
    · simp only [statLookup, bump, List.map_cons, List.find?_cons,
        if_neg hp] at h ⊢
      have hd : decide (p.1 = key) = false := by simp [hp]
      rw [hd] at h ⊢
      exact ih h

lemma statLookup_bump_ne (s : List (String × Nat)) (key key' : String)
    (h : key' ≠ key) :
    statLookup (bump s key) key' = statLookup s key' := by
  induction s with
  | nil => simp [statLookup, bump]
  | cons p rest ih =>
    by_cases hp : p.1 = key
    · have hp' : ¬ p.1 = key' :=
        fun hh => h ((hh ▸ hp : key' = key))
      simp only [statLookup, bump, List.map_cons, List.find?_cons,
        if_pos hp]
      dsimp only
      have h2 : decide (p.1 = key') = false := by simp [hp']
      rw [h2]
      exact ih
    · simp only [statLookup, bump, List.map_cons, List.find?_cons,
        if_neg hp]
      by_cases hp' : p.1 = key'
      · simp [hp']
      · have h2 : decide (p.1 = key') = false := by simp [hp']
        rw [h2]
        exact ih

lemma statLookup_setStat_ne (s : List (String × Nat)) (key key' : String)
    (v : Nat) (h : key' ≠ key) :
    statLookup (setStat s key v) key' = statLookup s key' := by
  induction s with
  | nil => simp [statLookup, setStat]
  | cons p rest ih =>
    by_cases hp : p.1 = key
    · have hp' : ¬ p.1 = key' :=
        fun hh => h ((hh ▸ hp : key' = key))
      simp only [statLookup, setStat, List.map_cons, List.find?_cons,
        if_pos hp]
      dsimp only
      have h2 : decide (p.1 = key') = false := by simp [hp']
      rw [h2]
      exact ih
    · simp only [statLookup, setStat, List.map_cons, List.find?_cons,
        if_neg hp]
      by_cases hp' : p.1 = key'
      · simp [hp']
      · have h2 : decide (p.1 = key') = false := by simp [hp']
        rw [h2]
        exact ih

/-! ## Loop invariant lemmas -/

lemma statLookup_ite (c : Prop) [Decidable c] (a b : List (String × Nat))
    (key : String) :
    statLookup (if c then a else b) key
      = if c then statLookup a key else statLookup b key := by
  split
  · rfl
  · rfl

lemma statLookup_processOwner_other (env : TradeEnv)
    (dry_run use_api : Bool) (mu : String) (pool : List Nat)
    (s : LoopState) (o : Nat) (key : String)
    (h1 : key ≠ "owners_seen") (h2 : key ≠ "skipped_self")
    (h3 : key ≠ "skipped_no_instance") (h4 : key ≠ "trades_attempted")
    (h5 : key ≠ "trades_succeeded") :
    statLookup (processOwner env dry_run use_api mu pool s o).stats key
      = statLookup s.stats key := by
  unfold processOwner
  dsimp only
  by_cases hself : toString o = mu
  · rw [if_pos hself]
    dsimp only
    rw [statLookup_bump_ne _ _ _ h2, statLookup_bump_ne _ _ _ h1]
  · rw [if_neg hself]
    cases hfp : env.findPartner s.k with
    | none =>
      dsimp only
      rw [statLookup_bump_ne _ _ _ h3, statLookup_bump_ne _ _ _ h1]
    | some hi =>
      dsimp only
      by_cases hdr : dry_run
      · rw [if_pos hdr]
        rw [statLookup_bump_ne _ _ _ h4, statLookup_bump_ne _ _ _ h1]
      · rw [if_neg hdr]
        dsimp only
        rw [statLookup_ite, statLookup_bump_ne _ _ _ h5,
          statLookup_bump_ne _ _ _ h4, statLookup_bump_ne _ _ _ h1,
          ite_self]

lemma statLookup_processOwner_seen (env : TradeEnv)
    (dry_run use_api : Bool) (mu : String) (pool : List Nat)
    (s : LoopState) (o : Nat) (n : Nat)
    (h : statLookup s.stats "owners_seen" = some n) :
    statLookup (processOwner env dry_run use_api mu pool s o).stats
      "owners_seen" = some (n + 1) := by
  unfold processOwner
  dsimp only
  by_cases hself : toString o = mu
  · rw [if_pos hself]
    dsimp only
    rw [statLookup_bump_ne _ _ _ (by decide)]
    exact statLookup_bump_self _ _ _ h
  · rw [if_neg hself]
    cases hfp : env.findPartner s.k with
    | none =>
      dsimp only
      rw [statLookup_bump_ne _ _ _ (by decide)]
      exact statLookup_bump_self _ _ _ h
    | some hi =>
      dsimp only
      by_cases hdr : dry_run
      · rw [if_pos hdr]
        rw [statLookup_bump_ne _ _ _ (by decide)]
        exact statLookup_bump_self _ _ _ h
      · rw [if_neg hdr]
        dsimp only
        rw [statLookup_ite,
          statLookup_bump_ne _ _ "owners_seen" (by decide),
          statLookup_bump_ne _ _ "owners_seen" (by decide), ite_self]
        exact statLookup_bump_self _ _ _ h

lemma attempts_processOwner (env : TradeEnv) (dry_run use_api : Bool)
    (mu : String) (pool : List Nat) (s : LoopState) (o : Nat)
    (hpool : pool ≠ [])
    (hs : ∀ a ∈ s.attempts, a.1 ∈ pool) :
    ∀ a ∈ (processOwner env dry_run use_api mu pool s o).attempts,
      a.1 ∈ pool := by
  have hchoice : pool.getD (env.choice s.k % pool.length) 0 ∈ pool := by
    have hlt : env.choice s.k % pool.length < pool.length :=
      Nat.mod_lt _ (List.length_pos.mpr hpool)
    rw [List.getD_eq_getElem pool 0 hlt]
    exact List.getElem_mem hlt
  unfold processOwner
  dsimp only
  by_cases hself : toString o = mu
  · rw [if_pos hself]
    exact hs
  · rw [if_neg hself]
    cases hfp : env.findPartner s.k with
    | none => exact hs
    | some hi =>
      dsimp only
      have happ : ∀ a ∈ s.attempts ++ [(pool.getD
          (env.choice s.k % pool.length) 0, o, hi)], a.1 ∈ pool := by
        intro a ha
        rcases List.mem_append.mp ha with ha | ha
        · exact hs a ha
        · rw [List.mem_singleton.mp ha]
          exact hchoice
      by_cases hdr : dry_run
      · rw [if_pos hdr]
        exact happ
      · rw [if_neg hdr]
        exact happ

lemma statLookup_foldOwners_other (env : TradeEnv)
    (dry_run use_api : Bool) (mu : String) (pool : List Nat) (key : String)
    (h1 : key ≠ "owners_seen") (h2 : key ≠ "skipped_self")
    (h3 : key ≠ "skipped_no_instance") (h4 : key ≠ "trades_attempted")
    (h5 : key ≠ "trades_succeeded") :
    ∀ (os : List Nat) (s : LoopState),
      statLookup
        (os.foldl (processOwner env dry_run use_api mu pool) s).stats key
      = statLookup s.stats key := by
  intro os
  induction os with
  | nil => intro s; rfl
  | cons o rest ih =>
    intro s
    rw [List.foldl_cons, ih,
      statLookup_processOwner_other env dry_run use_api mu pool s o key
        h1 h2 h3 h4 h5]

lemma statLookup_foldPages_other (env : TradeEnv)
    (dry_run use_api : Bool) (mu : String) (pool : List Nat) (key : String)
    (h0 : key ≠ "checked_pages")
    (h1 : key ≠ "owners_seen") (h2 : key ≠ "skipped_self")
    (h3 : key ≠ "skipped_no_instance") (h4 : key ≠ "trades_attempted")
    (h5 : key ≠ "trades_succeeded") :
    ∀ (pages : List (Nat × List Nat)) (s : LoopState),
      statLookup
        (pages.foldl (processPage env dry_run use_api mu pool) s).stats key
      = statLookup s.stats key := by
  intro pages
  induction pages with
  | nil => intro s; rfl
  | cons pg rest ih =>
    intro s
    rw [List.foldl_cons, ih]
    unfold processPage
    rw [statLookup_foldOwners_other env dry_run use_api mu pool key
      h1 h2 h3 h4 h5]
    exact statLookup_bump_ne _ _ _ h0

lemma statLookup_foldOwners_seen (env : TradeEnv)
    (dry_run use_api : Bool) (mu : String) (pool : List Nat) :
    ∀ (os : List Nat) (s : LoopState) (n : Nat),
      statLookup s.stats "owners_seen" = some n →
      statLookup
        (os.foldl (processOwner env dry_run use_api mu pool) s).stats
        "owners_seen" = some (n + os.length) := by
  intro os
  induction os with
  | nil => intro s n h; simpa using h
  | cons o rest ih =>
    intro s n h
    rw [List.foldl_cons]
    have := ih (processOwner env dry_run use_api mu pool s o) (n + 1)
      (statLookup_processOwner_seen env dry_run use_api mu pool s o n h)
    rw [this]
    congr 1
    simp
    omega

lemma statLookup_foldPages_seen (env : TradeEnv)
    (dry_run use_api : Bool) (mu : String) (pool : List Nat) :
    ∀ (pages : List (Nat × List Nat)) (s : LoopState) (n : Nat),
      statLookup s.stats "owners_seen" = some n →
      statLookup
        (pages.foldl (processPage env dry_run use_api mu pool) s).stats
        "owners_seen"
        = some (n + (pages.map fun p => p.2.length).sum) := by
  intro pages
  induction pages with
  | nil => intro s n h; simpa using h
  | cons pg rest ih =>
    intro s n h
    rw [List.foldl_cons]
    have hpg : statLookup (processPage env dry_run use_api mu pool
        s pg).stats "owners_seen" = some (n + pg.2.length) := by
      unfold processPage
      exact statLookup_foldOwners_seen env dry_run use_api mu pool pg.2 _ n
        (by rw [statLookup_bump_ne _ _ _ (by decide)]; exact h)
    rw [ih _ _ hpg]
    congr 1
    simp
    omega

lemma attempts_foldOwners (env : TradeEnv) (dry_run use_api : Bool)
    (mu : String) (pool : List Nat) (hpool : pool ≠ []) :
    ∀ (os : List Nat) (s : LoopState),
      (∀ a ∈ s.attempts, a.1 ∈ pool) →
      ∀ a ∈ (os.foldl (processOwner env dry_run use_api mu pool)
          s).attempts, a.1 ∈ pool := by
  intro os
  induction os with
  | nil => intro s hs; exact hs
  | cons o rest ih =>
    intro s hs
    rw [List.foldl_cons]
    exact ih _ (attempts_processOwner env dry_run use_api mu pool s o
      hpool hs)

lemma attempts_foldPages (env : TradeEnv) (dry_run use_api : Bool)
    (mu : String) (pool : List Nat) (hpool : pool ≠ []) :
    ∀ (pages : List (Nat × List Nat)) (s : LoopState),
      (∀ a ∈ s.attempts, a.1 ∈ pool) →
      ∀ a ∈ (pages.foldl (processPage env dry_run use_api mu pool)
          s).attempts, a.1 ∈ pool := by
  intro pages
  induction pages with
  | nil => intro s hs; exact hs
  | cons pg rest ih =>
    intro s hs
    rw [List.foldl_cons]
    apply ih
    unfold processPage
    exact attempts_foldOwners env dry_run use_api mu pool hpool pg.2 _ hs

/-! ## Rate-limit invariant (C6) -/

/-- Two successive dispatch intervals are separated by at least the minimum
trade delay, measured end-of-previous to start-of-next. -/
def rateSep (a b : ℚ × ℚ) : Prop := a.2 + MIN_TRADE_DELAY ≤ b.1

/-- Invariant threaded through the loop in real (non-dry-run) mode: the
dispatch intervals recorded so far respect the separation, the rate-limiter
mark `last_trade_time` is not ahead of the wall clock, and it is not before
the last dispatch's end. -/
def dispInv (s : LoopState) : Prop :=
  List.Chain' rateSep s.disp ∧ s.last ≤ s.time ∧
    ∀ p ∈ s.disp.getLast?, p.2 ≤ s.last

lemma dispInv_processOwner (env : TradeEnv) (use_api : Bool) (mu : String)
    (pool : List Nat) (s : LoopState) (o : Nat)
    (hfd : ∀ k, 0 ≤ env.findDur k) (hdd : ∀ k, 0 ≤ env.dispatchDur k)
    (hjit : ∀ k, 0 ≤ env.jitter k) (h : dispInv s) :
    dispInv (processOwner env false use_api mu pool s o) := by
  obtain ⟨hchain, hlt, hlast⟩ := h
  unfold processOwner
  dsimp only
  by_cases hself : toString o = mu
  · rw [if_pos hself]
    exact ⟨hchain, hlt, hlast⟩
  · rw [if_neg hself]
    have hlt' : s.last ≤ s.time + env.findDur s.k :=
      le_trans hlt (le_add_of_nonneg_right (hfd s.k))
    cases hfp : env.findPartner s.k with
    | none => exact ⟨hchain, hlt', hlast⟩
    | some hi =>
      dsimp only
      rw [if_neg (by simp : ¬ (false = true))]
      set t1 : ℚ :=
        if s.time + env.findDur s.k - s.last < MIN_TRADE_DELAY then
          s.last + MIN_TRADE_DELAY
        else s.time + env.findDur s.k with ht1def
      have ht1 : s.last + MIN_TRADE_DELAY ≤ t1 := by
        rw [ht1def]
        by_cases hw : s.time + env.findDur s.k - s.last < MIN_TRADE_DELAY
        · rw [if_pos hw]
        · rw [if_neg hw]
          have := not_lt.mp hw
          linarith
      refine ⟨?_, ?_, ?_⟩
      · rw [List.chain'_append]
        refine ⟨hchain, List.chain'_singleton _, ?_⟩
        intro a ha b hb
        have hb' : b = (t1, t1 + env.dispatchDur s.k) := by
          have := hb
          simp at this
          exact this.symm
        rw [hb']
        show a.2 + MIN_TRADE_DELAY ≤ t1
        have := hlast a ha
        linarith
      · show t1 + env.dispatchDur s.k
          ≤ t1 + env.dispatchDur s.k + env.jitter s.k
        linarith [hjit s.k]
      · intro p hp
        rw [List.getLast?_concat] at hp
        have hp' : p = (t1, t1 + env.dispatchDur s.k) := by
          have := hp
          simp at this
          exact this.symm
        rw [hp']

lemma dispInv_foldOwners (env : TradeEnv) (use_api : Bool) (mu : String)
    (pool : List Nat)
    (hfd : ∀ k, 0 ≤ env.findDur k) (hdd : ∀ k, 0 ≤ env.dispatchDur k)
    (hjit : ∀ k, 0 ≤ env.jitter k) :
    ∀ (os : List Nat) (s : LoopState), dispInv s →
      dispInv (os.foldl (processOwner env false use_api mu pool) s) := by
  intro os
  induction os with
  | nil => intro s hs; exact hs
  | cons o rest ih =>
    intro s hs
    rw [List.foldl_cons]
    exact ih _ (dispInv_processOwner env use_api mu pool s o hfd hdd hjit hs)

lemma dispInv_foldPages (env : TradeEnv) (use_api : Bool) (mu : String)
    (pool : List Nat)
    (hfd : ∀ k, 0 ≤ env.findDur k) (hdd : ∀ k, 0 ≤ env.dispatchDur k)
    (hjit : ∀ k, 0 ≤ env.jitter k) :
    ∀ (pages : List (Nat × List Nat)) (s : LoopState), dispInv s →
      dispInv (pages.foldl (processPage env false use_api mu pool) s) := by
  intro pages
  induction pages with
  | nil => intro s hs; exact hs
  | cons pg rest ih =>
    intro s hs
    rw [List.foldl_cons]
    apply ih
    unfold processPage
    apply dispInv_foldOwners env use_api mu pool hfd hdd hjit
    exact hs

/-! ## Claims C2, C4, C6, C9 -/

/-- A fully concrete oracle environment for closed evaluations: the partner
instance 501 is always found, every duration is one second. -/
def envK : TradeEnv :=
  { findPartner := fun _ => some 501
    findDur := fun _ => 1
    choice := fun _ => 0
    apiPrimary := fun _ => none
    apiSecondary := fun _ => none
    formFound := fun _ => false
    formSuccess := fun _ => false
    dispatchDur := fun _ => 1
    jitter := fun _ => 1 }

/-- C2 counterexample: the Card Selector finds no suitable card for this
inventory (no rank-"B" entry), yet the orchestration loop does not record
any `skipped_no_suitable_card` statistic — no such counter exists — and
attempts the trade anyway with a random instance from the whole
inventory. -/
theorem loop_no_suitable_card_counterexample :
    select_suitable_card_for_trade (fun _ => 0) [flatEntry "C" 9 4]
      targetB10 [] 0 false (fun l => l) List.head? = none ∧
    statLookup (send_trades_to_online_owners envK "99" targetB10
      [flatEntry "C" 9 4] [(1, [5])] true true 100).stats
      "skipped_no_suitable_card" = none ∧
    statLookup (send_trades_to_online_owners envK "99" targetB10
      [flatEntry "C" 9 4] [(1, [5])] true true 100).stats
      "trades_attempted" = some 1 := by
  decide

/-- C2 (amended): the orchestration loop never invokes the Card Selector:
no `skipped_no_suitable_card` statistic exists in any run, and on every
partner hit the loop offers an instance drawn from the precomputed pool
(`my_instances`: rank-matching instances, else the whole inventory) chosen
by `random.choice`. -/
theorem loop_never_invokes_selector (env : TradeEnv) (my_user_id : String)
    (target_card : TargetCard) (my_cards : List CardEntry)
    (pages : List (Nat × List Nat)) (dry_run use_api : Bool) (t0 : ℚ) :
    statLookup (send_trades_to_online_owners env my_user_id target_card
      my_cards pages dry_run use_api t0).stats "skipped_no_suitable_card"
      = none ∧
    ∀ a ∈ (send_trades_to_online_owners env my_user_id target_card
        my_cards pages dry_run use_api t0).attempts,
      a.1 ∈ myInstancesPool my_cards target_card := by
  unfold send_trades_to_online_owners
  dsimp only
  by_cases hpool : myInstancesPool my_cards target_card = []
  · rw [if_pos hpool]
    constructor
    · rw [statLookup_setStat_ne _ _ _ _ (by decide)]
      rfl
    · intro a ha
      cases ha
  · rw [if_neg hpool]
    constructor
    · rw [statLookup_foldPages_other env dry_run use_api my_user_id _ _
        (by decide) (by decide) (by decide) (by decide) (by decide)
        (by decide)]
      rfl
    · exact attempts_foldPages env dry_run use_api my_user_id _ hpool
        pages _ (fun a ha => absurd ha (List.not_mem_nil a))

/-- C4: when no inventory entry rank-matches the target but some entry has
an instance id, the loop does not skip: `skipped_no_my_cards` stays `0` and
every offered instance is drawn from the whole inventory
(`instances_any`). -/
theorem loop_falls_back_to_whole_inventory (env : TradeEnv)
    (my_user_id : String) (target_card : TargetCard)
    (my_cards : List CardEntry) (pages : List (Nat × List Nat))
    (dry_run use_api : Bool) (t0 : ℚ)
    (hnorank : ∀ c ∈ my_cards, loopRankOf c ≠ targetRankStr target_card)
    (hinst : instances_any my_cards ≠ []) :
    statLookup (send_trades_to_online_owners env my_user_id target_card
      my_cards pages dry_run use_api t0).stats "skipped_no_my_cards"
      = some 0 ∧
    ∀ a ∈ (send_trades_to_online_owners env my_user_id target_card
        my_cards pages dry_run use_api t0).attempts,
      a.1 ∈ instances_any my_cards := by
  have hranked : (if targetRankStr target_card = "" then []
      else my_cards.filterMap fun c =>
        if loopRankOf c = targetRankStr target_card then entryInstanceId c
        else none) = ([] : List Nat) := by
    by_cases hr : targetRankStr target_card = ""
    · rw [if_pos hr]
    · rw [if_neg hr, List.filterMap_eq_nil_iff]
      intro c hc
      rw [if_neg (hnorank c hc)]
  have hpool : myInstancesPool my_cards target_card
      = instances_any my_cards := by
    unfold myInstancesPool
    dsimp only
    rw [hranked]
    rfl
  have hpne : myInstancesPool my_cards target_card ≠ [] := by
    rw [hpool]; exact hinst
  unfold send_trades_to_online_owners
  dsimp only
  rw [if_neg hpne]
  constructor
  · rw [statLookup_foldPages_other env dry_run use_api my_user_id _ _
      (by decide) (by decide) (by decide) (by decide) (by decide)
      (by decide)]
    rfl
  · intro a ha
    rw [← hpool]
    exact attempts_foldPages env dry_run use_api my_user_id _ hpne pages _
      (fun a ha => absurd ha (List.not_mem_nil a)) a ha

/-- C4 witness: a rank-"C" inventory against a rank-"B" target still
trades, offering its only instance. -/
theorem loop_falls_back_to_whole_inventory_witness :
    (∀ c ∈ [flatEntry "C" 9 4],
      loopRankOf c ≠ targetRankStr targetB10) ∧
    (instances_any [flatEntry "C" 9 4] ≠ []) ∧
    (statLookup (send_trades_to_online_owners envK "99" targetB10
        [flatEntry "C" 9 4] [(1, [5])] true true 100).stats
        "skipped_no_my_cards" = some 0 ∧
      ∀ a ∈ (send_trades_to_online_owners envK "99" targetB10
          [flatEntry "C" 9 4] [(1, [5])] true true 100).attempts,
        a.1 ∈ instances_any [flatEntry "C" 9 4]) :=
  ⟨by decide, by decide,
   loop_falls_back_to_whole_inventory envK "99" targetB10
     [flatEntry "C" 9 4] [(1, [5])] true true 100 (by decide) (by decide)⟩

/-- Symbolic description of one dry-run owner step on a partner hit: the
simulated dispatch is recorded at the current wall-clock instant, and only
afterwards does the step wait out the minimum delay and stamp
`last_trade_time`. -/
lemma processOwner_dry_step (env : TradeEnv) (use_api : Bool) (mu : String)
    (pool : List Nat) (s : LoopState) (o hi : Nat)
    (hself : ¬ toString o = mu) (hfp : env.findPartner s.k = some hi) :
    processOwner env true use_api mu pool s o =
      { stats := bump (bump s.stats "owners_seen") "trades_attempted"
        time := if s.time + env.findDur s.k - s.last < MIN_TRADE_DELAY then
            s.last + MIN_TRADE_DELAY
          else s.time + env.findDur s.k
        last := if s.time + env.findDur s.k - s.last < MIN_TRADE_DELAY then
            s.last + MIN_TRADE_DELAY
          else s.time + env.findDur s.k
        k := s.k + 1
        disp := s.disp
        sims := s.sims ++ [s.time + env.findDur s.k]
        attempts := s.attempts
          ++ [(pool.getD (env.choice s.k % pool.length) 0, o, hi)] } := by
  unfold processOwner
  dsimp only
  rw [if_neg hself, hfp]
  dsimp only
  rw [if_pos rfl]

/-- C6 counterexample: in dry-run mode the simulated dispatch happens
before the rate-limit wait, so two simulated dispatches occur one second
apart — closer than the 11-second minimum interval. -/
theorem dry_run_rate_limit_counterexample :
    (send_trades_to_online_owners envK "99" targetB10 [flatEntry "B" 100 7]
      [(1, [2, 3])] true true 100).sims = [101, 102] ∧
    ¬ List.Chain' (fun a b : ℚ => a + MIN_TRADE_DELAY ≤ b)
      (send_trades_to_online_owners envK "99" targetB10
        [flatEntry "B" 100 7] [(1, [2, 3])] true true 100).sims := by
  have hpool : myInstancesPool [flatEntry "B" 100 7] targetB10 = [7] := by
    decide
  have hsims : (send_trades_to_online_owners envK "99" targetB10
      [flatEntry "B" 100 7] [(1, [2, 3])] true true 100).sims
      = [101, 102] := by
    unfold send_trades_to_online_owners
    dsimp only
    rw [hpool]
    rw [if_neg (by decide : ¬ ([7] : List Nat) = [])]
    rw [List.foldl_cons, List.foldl_nil]
    unfold processPage
    dsimp only
    rw [List.foldl_cons, List.foldl_cons, List.foldl_nil]
    rw [processOwner_dry_step envK true "99" [7] _ 2 501 (by decide) rfl]
    rw [processOwner_dry_step envK true "99" [7] _ 3 501 (by decide) rfl]
    dsimp only
    norm_num [envK, MIN_TRADE_DELAY]
  refine ⟨hsims, ?_⟩
  rw [hsims]
  intro h
  rw [List.chain'_cons] at h
  have := h.1
  rw [MIN_TRADE_DELAY] at this
  norm_num at this

/-- C6 (amended): in real (non-dry-run) mode, consecutive dispatch calls
are separated by at least `MIN_TRADE_DELAY` seconds of wall-clock time,
measured from the end of the previous dispatch to the start of the next,
globally across the run.  (In dry-run mode the delay is honored after,
not before, the simulated dispatch; see the counterexample.) -/
theorem dispatch_rate_limited (env : TradeEnv) (my_user_id : String)
    (target_card : TargetCard) (my_cards : List CardEntry)
    (pages : List (Nat × List Nat)) (use_api : Bool) (t0 : ℚ)
    (hfd : ∀ k, 0 ≤ env.findDur k) (hdd : ∀ k, 0 ≤ env.dispatchDur k)
    (hjit : ∀ k, 0 ≤ env.jitter k) (ht0 : 0 ≤ t0) :
    List.Chain' rateSep (send_trades_to_online_owners env my_user_id
      target_card my_cards pages false use_api t0).disp := by
  unfold send_trades_to_online_owners
  dsimp only
  by_cases hpool : myInstancesPool my_cards target_card = []
  · rw [if_pos hpool]
    exact List.chain'_nil
  · rw [if_neg hpool]
    have hinit : dispInv ⟨statsInit, t0, 0, 0, [], [], []⟩ := by
      refine ⟨List.chain'_nil, ht0, ?_⟩
      intro p hp
      cases hp
    exact (dispInv_foldPages env use_api my_user_id _ hfd hdd hjit pages _
      hinit).1

/-- C6 witness: a concrete real-mode run over two owners keeps its two
dispatches 11 seconds apart. -/
theorem dispatch_rate_limited_witness :
    (∀ k, (0:ℚ) ≤ envK.findDur k) ∧ (∀ k, (0:ℚ) ≤ envK.dispatchDur k) ∧
    (∀ k, (0:ℚ) ≤ envK.jitter k) ∧ ((0:ℚ) ≤ 100) ∧
    List.Chain' rateSep (send_trades_to_online_owners envK "99" targetB10
      [flatEntry "B" 100 7] [(1, [2, 3])] false true 100).disp :=
  ⟨fun _ => by norm_num [envK], fun _ => by norm_num [envK],
   fun _ => by norm_num [envK], by norm_num,
   dispatch_rate_limited envK "99" targetB10 [flatEntry "B" 100 7]
     [(1, [2, 3])] true 100 (fun _ => by norm_num [envK])
     (fun _ => by norm_num [envK]) (fun _ => by norm_num [envK])
     (by norm_num)⟩

/-- C9: the loop is total over the owner-page source — every owner of every
page is processed (counted in `owners_seen`) no matter what the oracles
report — and a network exception in the primary dispatch POST makes
`create_trade_via_api` report failure rather than propagate. -/
theorem loop_absorbs_per_owner_failures (env : TradeEnv)
    (my_user_id : String) (target_card : TargetCard)
    (my_cards : List CardEntry) (pages : List (Nat × List Nat))
    (dry_run use_api : Bool) (t0 : ℚ)
    (hpool : myInstancesPool my_cards target_card ≠ []) :
    statLookup (send_trades_to_online_owners env my_user_id target_card
      my_cards pages dry_run use_api t0).stats "owners_seen"
      = some ((pages.map fun p => p.2.length).sum) ∧
    ∀ secondary : Option TradeResp,
      create_trade_via_api none secondary = false := by
  constructor
  · unfold send_trades_to_online_owners
    dsimp only
    rw [if_neg hpool]
    have := statLookup_foldPages_seen env dry_run use_api my_user_id
      (myInstancesPool my_cards target_card) pages
      ⟨statsInit, t0, 0, 0, [], [], []⟩ 0 (by rfl)
    rw [this, Nat.zero_add]
  · intro secondary
    rfl

/-- C9 witness: a concrete two-page run sees all three owners even though
every dispatch-POST raises. -/
theorem loop_absorbs_per_owner_failures_witness :
    (myInstancesPool [flatEntry "B" 100 7] targetB10 ≠ []) ∧
    (statLookup (send_trades_to_online_owners envK "99" targetB10
        [flatEntry "B" 100 7] [(1, [2, 3]), (2, [4])] false true 100).stats
        "owners_seen" = some 3 ∧
      ∀ secondary : Option TradeResp,
        create_trade_via_api none secondary = false) :=
  ⟨by decide,
   loop_absorbs_per_owner_failures envK "99" targetB10
     [flatEntry "B" 100 7] [(1, [2, 3]), (2, [4])] false true 100
     (by decide)⟩

/-! ## Partner locator (trade.py, `PartnerState` and
`find_partner_card_instance`)

The configuration constants `PARTNER_TIMEOUT_LIMIT` and
`HUGE_LIST_THRESHOLD` live in `mangabuff.config`, which is not among the
verified sources.  Modelled from the spec: they are the Partner Locator's
block threshold and "huge list" safety threshold; their numeric values are
not fixed by the sources here, so they are parameters. -/

structure Cfg where
  PARTNER_TIMEOUT_LIMIT : Nat
  HUGE_LIST_THRESHOLD : Nat
  deriving Repr, DecidableEq

/-- `PartnerState` (trade.py, lines 14-29): the blocked set and the
per-partner timeout counters. -/
structure PartnerState where
  blocked : List Nat
  timeouts : List (Nat × Nat)
  deriving Repr, DecidableEq

/-- Set insertion for `blocked.add(pid)`. -/
def insertB (l : List Nat) (p : Nat) : List Nat :=
  if p ∈ l then l else p :: l

def lookupT : List (Nat × Nat) → Nat → Option Nat
  | [], _ => none
  | p :: l, k => if p.1 = k then some p.2 else lookupT l k

/-- `self.timeouts.pop(pid, None)`. -/
def eraseT : List (Nat × Nat) → Nat → List (Nat × Nat)
  | [], _ => []
  | p :: l, k => if p.1 = k then eraseT l k else p :: eraseT l k

/-- `self.timeouts[pid] = n`. -/
def setT (l : List (Nat × Nat)) (k v : Nat) : List (Nat × Nat) :=
  eraseT l k ++ [(k, v)]

/-- `PartnerState.is_blocked` (trade.py, lines 19-20). -/
def is_blocked (st : PartnerState) (pid : Nat) : Bool :=
  pid ∈ st.blocked

/-- `PartnerState.mark_timeout` (trade.py, lines 22-26): bump the counter;
at the threshold, move the partner to `blocked` and drop the counter. -/
def mark_timeout (cfg : Cfg) (st : PartnerState) (pid : Nat) :
    PartnerState :=
  let n := (lookupT st.timeouts pid).getD 0 + 1
  if cfg.PARTNER_TIMEOUT_LIMIT ≤ n then
    { blocked := insertB st.blocked pid,
      timeouts := eraseT (setT st.timeouts pid n) pid }
  else
    { st with timeouts := setT st.timeouts pid n }

/-- `PartnerState.clear_timeout` (trade.py, lines 28-29). -/
def clear_timeout (st : PartnerState) (pid : Nat) : PartnerState :=
  { st with timeouts := eraseT st.timeouts pid }

/-- A partner card as the HTML/JSON parsers (`parse_trade_cards_html`,
`normalize_card_entry`, `entry_card_id`, `entry_instance_id` from the
missing `mangabuff.parsing.cards`) deliver it.  Modelled from the spec: the
Card Catalog Normalizer yields the design id and the instance id; instance
id `0` stands for a falsy (absent) one. -/
structure PCard where
  card_id : Nat
  instance_id : Nat
  deriving Repr, DecidableEq

/-- A parsed response body: either a JSON object carrying a `cards` list
(the only shape subject to the huge-list check), or anything else the HTML
parser turns into a card list (raw HTML, a JSON `html`/`view`/`content`
fragment, or a string-valued `cards`). -/
inductive Body where
  | jsonCards (cs : List PCard)
  | htmlCards (cs : List PCard)
  deriving Repr, DecidableEq

/-- The outcome of a raw `session.get` of the offers page (steps 1 and 4):
a read timeout, a `requests` error, any other exception (e.g. while
parsing), or a response whose body parses to a card list. -/
inductive RawResp where
  | timeout
  | reqErr
  | exc
  | resp (status : Nat) (cards : List PCard)
  deriving Repr, DecidableEq

/-- The outcome of one wrapped `get`/`post` network call
(`_attempt_search` / `_attempt_ajax`): read timeout, connect timeout,
other `requests` error, or a response with a status, a `read_capped`
overflow flag and a parsed body. -/
inductive CallResp where
  | readTimeout
  | connTimeout
  | reqErr
  | resp (status : Nat) (tooBig : Bool) (body : Body)
  deriving Repr, DecidableEq

/-- The network requests a locator call can issue. -/
inductive Req where
  | offersPage (pid : Nat)
  | searchReq (pid offset : Nat)
  | ajaxReq (pid : Nat)
  | offersFinal (pid : Nat)
  deriving Repr, DecidableEq

/-- Oracle for one locator invocation: the two offers-page fetches, and the
indexed stream of wrapped search/ajax calls. -/
structure FindEnv where
  offers1 : RawResp
  offers4 : RawResp
  net : Nat → CallResp

/-- Per-invocation running state: the locator's `PartnerState`, the trace
of issued requests, and the wrapped-call counter feeding the oracle. -/
structure FState where
  st : PartnerState
  trace : List Req
  ctr : Nat
  deriving Repr, DecidableEq

/-- Modelled from the spec: `norm_text` from `mangabuff.utils.text`
(missing from src); the spec only requires a normalized name hint "longer
than 2 characters", modelled as whitespace-stripping. -/
def norm_text (s : String) : String := pyStrip s

/-- Python truthiness of an optional string. -/
def truthyStr (o : Option String) : Bool :=
  match o with
  | some s => s ≠ ""
  | none => false

/-- `scan a parsed card list for the target design` — the repeated inner
loop `for c in cards: if entry_card_id(c) == target_id: inst =
entry_instance_id(c); if inst: return inst`. -/
def scanFor (target_id : Nat) (cards : List PCard) : Option Nat :=
  cards.findSome? fun c =>
    if c.card_id = target_id ∧ c.instance_id ≠ 0 then some c.instance_id
    else none

/-- `_attempt_search` (trade.py, lines 50-81). -/
def attempt_search (cfg : Cfg) (env : FindEnv) (pid : Nat) (fs : FState)
    (offset : Nat) (q : String) : List PCard × FState :=
  if (norm_text q).length ≤ 2 then ([], fs)
  else
    let r := env.net fs.ctr
    let fs := { fs with trace := fs.trace ++ [Req.searchReq pid offset],
                        ctr := fs.ctr + 1 }
    match r with
    | .readTimeout => ([], { fs with st := mark_timeout cfg fs.st pid })
    | .connTimeout => ([], fs)
    | .reqErr => ([], fs)
    | .resp status tooBig body =>
      if status ≠ 200 then ([], fs)
      else if tooBig then
        ([], { fs with st := { blocked := insertB fs.st.blocked pid,
                               timeouts := eraseT fs.st.timeouts pid } })
      else
        match body with
        | .jsonCards cs =>
          if cfg.HUGE_LIST_THRESHOLD < cs.length then
            ([], { fs with st :=
              { fs.st with blocked := insertB fs.st.blocked pid } })
          else (cs, fs)
        | .htmlCards cs => (cs, fs)

/-- The number of payload variants `_attempt_ajax` builds (trade.py, lines
100-125); the payload contents reach only the remote side and are absorbed
into the oracle. -/
def numPayloads (rank search : Bool) : Nat :=
  (if rank && search then 4 else 0) + (if rank then 2 else 0) +
    (if search then 2 else 0) + 7

/-- The `for payload in attempts` loop of `_attempt_ajax` (trade.py, lines
127-173). -/
def ajax_loop (cfg : Cfg) (env : FindEnv) (pid : Nat) :
    Nat → FState → List PCard × FState
  | 0, fs => ([], fs)
  | n + 1, fs =>
    let r := env.net fs.ctr
    let fs := { fs with trace := fs.trace ++ [Req.ajaxReq pid],
                        ctr := fs.ctr + 1 }
    match r with
    | .readTimeout => ajax_loop cfg env pid n
        { fs with st := mark_timeout cfg fs.st pid }
    | .connTimeout => ajax_loop cfg env pid n
        { fs with st := mark_timeout cfg fs.st pid }
    | .reqErr => ajax_loop cfg env pid n fs
    | .resp status tooBig body =>
      if status ≠ 200 then ajax_loop cfg env pid n fs
      else if tooBig then
        ([], { fs with st := { blocked := insertB fs.st.blocked pid,
                               timeouts := eraseT fs.st.timeouts pid } })
      else
        let fs := { fs with st := clear_timeout fs.st pid }
        match body with
        | .jsonCards cs =>
          if cfg.HUGE_LIST_THRESHOLD < cs.length then
            ([], { fs with st :=
              { fs.st with blocked := insertB fs.st.blocked pid } })
          else (cs, fs)
        | .htmlCards cs =>
          if cs ≠ [] then (cs, fs) else ajax_loop cfg env pid n fs

/-- `_attempt_ajax` (trade.py, lines 84-173): blocked partners are not
contacted at all. -/
def attempt_ajax (cfg : Cfg) (env : FindEnv) (pid : Nat) (fs : FState)
    (rank : String) (search : Option String) (offset : Nat) :
    List PCard × FState :=
  if is_blocked fs.st pid then ([], fs)
  else ajax_loop cfg env pid
    (numPayloads (rank ≠ "") (truthyStr search)) fs

/-- `load_trade_cards` (trade.py, lines 176-181). -/
def load_trade_cards (cfg : Cfg) (env : FindEnv) (pid : Nat) (fs : FState)
    (rank : String) (search : Option String) (offset : Nat) :
    List PCard × FState :=
  if truthyStr search then
    let p := attempt_search cfg env pid fs offset (search.getD "")
    if p.1 ≠ [] then p
    else attempt_ajax cfg env pid p.2 rank search offset
  else attempt_ajax cfg env pid fs rank search offset

/-- The offset-paged fallback scan, step 3 of `find_partner_card_instance`
(trade.py, lines 256-297): page size 60, at most 1000 pages, stop at a
short page or after 30000 scanned items; the short inter-page sleep has no
observable effect here. -/
def pageLoop (cfg : Cfg) (env : FindEnv) (pid target_id : Nat)
    (rank : String) : Nat → Nat → Nat → FState → Option Nat × FState
  | 0, _, _, fs => (none, fs)
  | fuel + 1, offset, scanned, fs =>
    let p := load_trade_cards cfg env pid fs rank none offset
    if p.1 = [] then (none, p.2)
    else
      match scanFor target_id p.1 with
      | some inst => (some inst, p.2)
      | none =>
        let scanned := scanned + p.1.length
        if p.1.length < 60 then (none, p.2)
        else if 30000 < scanned then (none, p.2)
        else pageLoop cfg env pid target_id rank fuel
          (offset + p.1.length) scanned p.2

/-- Steps 2-4 of `find_partner_card_instance` (trade.py, lines 233-318):
the quick name search, the paged scan, and the final longer-timeout
offers-page retry. -/
def find_partner_steps234 (cfg : Cfg) (env : FindEnv)
    (pid target_id : Nat) (rank name : String) (fs : FState) :
    Option Nat × FState :=
  let r2 :=
    if 2 < (norm_text name).length then
      let p := load_trade_cards cfg env pid fs rank (some name) 0
      (scanFor target_id p.1, p.2)
    else (none, fs)
  match r2 with
  | (some inst, fs2) => (some inst, fs2)
  | (none, fs2) =>
    match pageLoop cfg env pid target_id rank 1000 0 0 fs2 with
    | (some inst, fs3) => (some inst, fs3)
    | (none, fs3) =>
      let fs4 := { fs3 with trace := fs3.trace ++ [Req.offersFinal pid] }
      match env.offers4 with
      | .resp status cards =>
        if status = 200 then (scanFor target_id cards, fs4)
        else (none, fs4)
      | _ => (none, fs4)

/-- `find_partner_card_instance` (trade.py, lines 184-318).  A fresh
`PartnerState` is constructed inside every invocation (line 195), exactly
as in the source — the function takes no cross-call state.  The `side`
parameter reaches only the request payloads and is absorbed into the
oracle. -/
def find_partner_card_instance (cfg : Cfg) (env : FindEnv)
    (partner_id : Nat) (side : String) (card_id : Nat)
    (rank name : String) : Option Nat × FState :=
  let target_id := card_id
  let fs : FState := ⟨⟨[], []⟩, [], 0⟩
  let fs := { fs with trace := fs.trace ++ [Req.offersPage partner_id] }
  match env.offers1 with
  | .timeout => (none, { fs with st := mark_timeout cfg fs.st partner_id })
  | .reqErr => (none, fs)
  | .exc => find_partner_steps234 cfg env partner_id target_id rank name fs
  | .resp status cards =>
    if status = 200 then
      match scanFor target_id cards with
      | some inst => (some inst, fs)
      | none =>
        find_partner_steps234 cfg env partner_id target_id rank name fs
    else find_partner_steps234 cfg env partner_id target_id rank name fs

/-! ## Claim C3 -/

/-- Block threshold 1 timeout; huge-list threshold 1000. -/
def cfgC3 : Cfg := ⟨1, 1000⟩

/-- An environment in which the partner's offers page read-times-out and
every other call errors. -/
def envC3 : FindEnv :=
  { offers1 := RawResp.timeout
    offers4 := RawResp.reqErr
    net := fun _ => CallResp.reqErr }

/-- C3 (code bug): a locator call whose offers-page fetch times out marks
the partner's timeout count up to the block threshold and blocks the
partner — but only in the `PartnerState` constructed inside that call.
`find_partner_card_instance` takes no cross-call state and builds a fresh
`PartnerState` on line 195, so any subsequent call for the same partner —
which is this very same function application — still issues the
offers-page request (non-empty trace) instead of returning "not found"
without network activity, contradicting the claimed invariant. -/
theorem find_partner_fresh_state_reissues_requests :
    (find_partner_card_instance cfgC3 envC3 7 "receiver" 42 "B"
      "Name").2.st.blocked = [7] ∧
    (find_partner_card_instance cfgC3 envC3 7 "receiver" 42 "B"
      "Name").1 = none ∧
    (find_partner_card_instance cfgC3 envC3 7 "receiver" 42 "B"
      "Name").2.trace = [Req.offersPage 7] := by
  decide

end Clubtaro
